import Mathlib

/-!
# Verification of the drcedit cluster membership and coordination subsystem

Shallow embedding of the Discovery service (`src/server/services/Discovery.ts`),
its wire-format type guards (`src/server/types.ts`), and the address/priority
helpers (`networkinfo.ts`), together with proofs about the embedded code.

Conventions used throughout:
* JavaScript arrays become `List`s; keyed timer registries (maps from address
  strings to timer handles) become lists of keys (an address is a key of the
  registry iff a timer is pending for it).
* Machine numbers are `Nat`; the 32-bit bitwise operations of the source are
  expressed with `Nat` bitwise operators, restricted by octet bounds where the
  source relies on values fitting in one byte.
* Fallible code returns `Except`; a thrown exception that the dispatcher
  catches is modelled by returning the state as mutated up to the throw.
-/

namespace Drcedit

/-! ## Address and priority helpers (`networkinfo.ts`) -/

/-- Splitting a character list on `'.'`, keeping empty components — the
character-level semantics of `String.split('.')`. -/
def splitCharsOnDot : List Char → List (List Char)
  | [] => [[]]
  | c :: cs =>
    let rest := splitCharsOnDot cs
    if c = '.' then [] :: rest
    else match rest with
      | [] => [[c]]
      | r :: rs => (c :: r) :: rs

/-- `address.split('.')` of the source. -/
def splitOnDot (s : String) : List String :=
  (splitCharsOnDot s.data).map (fun cs => String.mk cs)

/-- `parseInt(s, 10)` as used on the octet strings produced by splitting a
dotted-quad address: the decimal value on an all-digit string.  (On other
strings JS `parseInt` yields `NaN`; the fallback value 0 here is never reached
under the validity hypotheses of the theorems below.) -/
def parseDec (s : String) : Nat :=
  if !s.data.isEmpty && s.data.all Char.isDigit then
    s.data.foldl (fun acc c => acc * 10 + (c.toNat - 48)) 0
  else 0

/-- `getPriorityNumber(address, mask)`: split both strings on `"."`, parse the
octets, compute `~mask & addr` per octet, and read the concatenation of the
four 8-bit binary renderings as one big-endian number.  For octet values below
256 the `padStart(8, '0')`/`join`/`parseInt(_, 2)` pipeline of the source is
exactly base-256 big-endian composition, and 32-bit `~m & e` equals
`(255 ^^^ m) &&& e`; the fold below states that composition directly. -/
def getPriorityNumber (address mask : String) : Nat :=
  let addrParts := (splitOnDot address).map parseDec
  let maskParts := (splitOnDot mask).map parseDec
  (addrParts.zip maskParts).foldl (fun acc em => acc * 256 + ((255 ^^^ em.2) &&& em.1)) 0

/-- `validAddress(str)`: four dot-separated runs of digits, each parsing to a
value at most 255 (the source checks this with the regex
`^(\d+)\.(\d+)\.(\d+)\.(\d+)$` plus `parseInt` bounds). -/
def validAddress (str : String) : Bool :=
  match splitOnDot str with
  | [a, b, c, d] =>
      [a, b, c, d].all fun s => !s.data.isEmpty && s.data.all Char.isDigit && parseDec s ≤ 255
  | _ => false

/-- Big-endian base-256 reading of a list of octets (the spec's "read as an
unsigned big-endian integer"). -/
def addressValue (octets : List Nat) : Nat :=
  octets.foldl (fun acc x => acc * 256 + x) 0

/-- The specification's description of the priority function: the bitwise AND
of the complement of the (32-bit) mask with the address. -/
def hostBits (addr mask : Nat) : Nat := (mask ^^^ (2 ^ 32 - 1)) &&& addr

/-! ### Byte-level decomposition lemmas for the C9 proof -/

theorem byte_xor {x x' : Nat} (hx : x < 256) (hx' : x' < 256) (y y' : Nat) :
    (x + 256 * y) ^^^ (x' + 256 * y') = (x ^^^ x') + 256 * (y ^^^ y') := by
  have hpow : (256 : Nat) = 2 ^ 8 := by norm_num
  have hx8 : x < 2 ^ 8 := hpow ▸ hx
  have hx8' : x' < 2 ^ 8 := hpow ▸ hx'
  have hxx' : x ^^^ x' < 2 ^ 8 := Nat.xor_lt_two_pow hx8 hx8'
  apply Nat.eq_of_testBit_eq
  intro k
  have h1 : x + 256 * y = 2 ^ 8 * y + x := by ring
  have h2 : x' + 256 * y' = 2 ^ 8 * y' + x' := by ring
  have h3 : (x ^^^ x') + 256 * (y ^^^ y') = 2 ^ 8 * (y ^^^ y') + (x ^^^ x') := by ring
  rw [h1, h2, h3, Nat.testBit_xor,
    Nat.testBit_mul_pow_two_add y hx8, Nat.testBit_mul_pow_two_add y' hx8',
    Nat.testBit_mul_pow_two_add (y ^^^ y') hxx']
  by_cases h : k < 8 <;> simp [h]

theorem byte_and {x x' : Nat} (hx : x < 256) (hx' : x' < 256) (y y' : Nat) :
    (x + 256 * y) &&& (x' + 256 * y') = (x &&& x') + 256 * (y &&& y') := by
  have hpow : (256 : Nat) = 2 ^ 8 := by norm_num
  have hx8 : x < 2 ^ 8 := hpow ▸ hx
  have hx8' : x' < 2 ^ 8 := hpow ▸ hx'
  have hxx' : x &&& x' < 2 ^ 8 := Nat.and_lt_two_pow x hx8'
  apply Nat.eq_of_testBit_eq
  intro k
  have h1 : x + 256 * y = 2 ^ 8 * y + x := by ring
  have h2 : x' + 256 * y' = 2 ^ 8 * y' + x' := by ring
  have h3 : (x &&& x') + 256 * (y &&& y') = 2 ^ 8 * (y &&& y') + (x &&& x') := by ring
  rw [h1, h2, h3, Nat.testBit_and,
    Nat.testBit_mul_pow_two_add y hx8, Nat.testBit_mul_pow_two_add y' hx8',
    Nat.testBit_mul_pow_two_add (y &&& y') hxx']
  by_cases h : k < 8 <;> simp [h]

theorem hostBits_bytes {a0 a1 a2 a3 m0 m1 m2 m3 : Nat}
    (_ha0 : a0 < 256) (ha1 : a1 < 256) (ha2 : a2 < 256) (ha3 : a3 < 256)
    (hm0 : m0 < 256) (hm1 : m1 < 256) (hm2 : m2 < 256) (hm3 : m3 < 256) :
    hostBits ((((a0 * 256 + a1) * 256 + a2) * 256 + a3))
      ((((m0 * 256 + m1) * 256 + m2) * 256 + m3)) =
      ((((255 ^^^ m0) &&& a0) * 256 + ((255 ^^^ m1) &&& a1)) * 256 +
          ((255 ^^^ m2) &&& a2)) * 256 + ((255 ^^^ m3) &&& a3) := by
  have hpow : (256 : Nat) = 2 ^ 8 := by norm_num
  have h255 : (255 : Nat) < 256 := by norm_num
  have hx0 : m0 ^^^ 255 < 256 := hpow.symm ▸ Nat.xor_lt_two_pow (hpow ▸ hm0) (hpow ▸ h255)
  have hx1 : m1 ^^^ 255 < 256 := hpow.symm ▸ Nat.xor_lt_two_pow (hpow ▸ hm1) (hpow ▸ h255)
  have hx2 : m2 ^^^ 255 < 256 := hpow.symm ▸ Nat.xor_lt_two_pow (hpow ▸ hm2) (hpow ▸ h255)
  have hx3 : m3 ^^^ 255 < 256 := hpow.symm ▸ Nat.xor_lt_two_pow (hpow ▸ hm3) (hpow ▸ h255)
  have hones : (2 : Nat) ^ 32 - 1 = 255 + 256 * (255 + 256 * (255 + 256 * 255)) := by norm_num
  have hM : ((m0 * 256 + m1) * 256 + m2) * 256 + m3
      = m3 + 256 * (m2 + 256 * (m1 + 256 * m0)) := by ring
  have hA : ((a0 * 256 + a1) * 256 + a2) * 256 + a3
      = a3 + 256 * (a2 + 256 * (a1 + 256 * a0)) := by ring
  unfold hostBits
  rw [hones, hM, hA, byte_xor hm3 h255, byte_xor hm2 h255, byte_xor hm1 h255,
    byte_and hx3 ha3, byte_and hx2 ha2, byte_and hx1 ha1]
  have e0 : (m0 ^^^ 255) &&& a0 = (255 ^^^ m0) &&& a0 := by rw [Nat.xor_comm]
  have e1 : (m1 ^^^ 255) &&& a1 = (255 ^^^ m1) &&& a1 := by rw [Nat.xor_comm]
  have e2 : (m2 ^^^ 255) &&& a2 = (255 ^^^ m2) &&& a2 := by rw [Nat.xor_comm]
  have e3 : (m3 ^^^ 255) &&& a3 = (255 ^^^ m3) &&& a3 := by rw [Nat.xor_comm]
  rw [e0, e1, e2, e3]
  ring

theorem validAddress_parts {str : String} (h : validAddress str = true) :
    ∃ s0 s1 s2 s3, splitOnDot str = [s0, s1, s2, s3] ∧
      parseDec s0 ≤ 255 ∧ parseDec s1 ≤ 255 ∧ parseDec s2 ≤ 255 ∧ parseDec s3 ≤ 255 := by
  unfold validAddress at h
  split at h
  case h_1 s0 s1 s2 s3 heq =>
    refine ⟨s0, s1, s2, s3, heq, ?_, ?_, ?_, ?_⟩ <;>
      simp only [List.all_cons, List.all_nil, Bool.and_true, Bool.and_eq_true,
        decide_eq_true_eq] at h <;> tauto
  case h_2 => exact absurd h (by simp)

/-- C9: for every valid IPv4 address string and netmask string (four dotted
octets, each at most 255), `getPriorityNumber` returns the bitwise AND of the
complement of the mask with the address, both read as unsigned big-endian
integers — the host bits of the address. -/
theorem C9_getPriorityNumber_hostBits (address mask : String)
    (hA : validAddress address = true) (hM : validAddress mask = true) :
    getPriorityNumber address mask
      = hostBits (addressValue ((splitOnDot address).map parseDec))
          (addressValue ((splitOnDot mask).map parseDec)) := by
  obtain ⟨s0, s1, s2, s3, hsa, b0, b1, b2, b3⟩ := validAddress_parts hA
  obtain ⟨t0, t1, t2, t3, hsm, c0, c1, c2, c3⟩ := validAddress_parts hM
  have hb0 : parseDec s0 < 256 := by omega
  have hb1 : parseDec s1 < 256 := by omega
  have hb2 : parseDec s2 < 256 := by omega
  have hb3 : parseDec s3 < 256 := by omega
  have hc0 : parseDec t0 < 256 := by omega
  have hc1 : parseDec t1 < 256 := by omega
  have hc2 : parseDec t2 < 256 := by omega
  have hc3 : parseDec t3 < 256 := by omega
  simp only [getPriorityNumber, addressValue, hsa, hsm, List.map_cons, List.map_nil,
    List.zip_cons_cons, List.zip_nil_right, List.foldl_cons, List.foldl_nil,
    Nat.zero_mul, Nat.zero_add]
  rw [hostBits_bytes hb0 hb1 hb2 hb3 hc0 hc1 hc2 hc3]

/-- Witness for C9: the theorem applied to a concrete address and netmask. -/
theorem C9_getPriorityNumber_hostBits_witness :
    validAddress "10.0.0.5" = true ∧ validAddress "255.255.255.0" = true ∧
    getPriorityNumber "10.0.0.5" "255.255.255.0"
      = hostBits (addressValue ((splitOnDot "10.0.0.5").map parseDec))
          (addressValue ((splitOnDot "255.255.255.0").map parseDec)) :=
  ⟨by decide, by decide, C9_getPriorityNumber_hostBits _ _ (by decide) (by decide)⟩

/-! ## Data model (`src/server/types.ts`, the variant imported by Discovery)

The types module used by `Discovery.ts` enumerates exactly two roles:
`Role = 'MESSAGE_BROKER' | 'GATEWAY'`. -/

inductive Role where
  | MESSAGE_BROKER
  | GATEWAY
deriving DecidableEq, Repr

/-- An entry of a node list carried on the wire: `{address, roles}`. -/
structure MessageNodeInfo where
  address : String
  roles : List Role
deriving DecidableEq, Repr

/-- A membership-table entry: `MessageNodeInfo` plus the locally computed
priority. -/
structure NodeInfo where
  address : String
  priority : Nat
  roles : List Role
deriving DecidableEq, Repr

/-- `RoleData`: the record Discovery keeps about the current message broker
and gateway. -/
structure RoleData where
  address : String
  priority : Nat
deriving DecidableEq, Repr

/-- Environment constants fixed at module load (`networkinfo.ts`): the local
address and the netmask of the selected interface. -/
structure Env where
  HOST : String
  netmask : String
deriving DecidableEq, Repr

/-- `PRIORITY`: the local node's priority, computed once at startup. -/
def Env.PRIORITY (env : Env) : Nat := getPriorityNumber env.HOST env.netmask

/-! ## Wire codec (`Discovery.#parseDiscoveryMessage` and helpers)

`JSON.parse` is the platform's JSON text parser; the codec is modelled over
already-decoded JSON values, with the decoder passed in as a parameter
`decode : String → Except String Json` (a failing `decode` models a
`SyntaxError` thrown by `JSON.parse`). -/

inductive Json where
  | null
  | bool (b : Bool)
  | num (n : Int)
  | str (s : String)
  | arr (elems : List Json)
  | obj (fields : List (String × Json))

/-- JS property read `j[k]`: `none` models `undefined` (missing key, or any
receiver that is not an object — for a `null` receiver the thrown `TypeError`
is caught by the same dispatcher handler as a validation error). -/
def Json.get? : Json → String → Option Json
  | .obj fields, k => (fields.find? (fun f => f.1 = k)).map (·.2)
  | _, _ => none

/-- `isRole` from the types module imported by Discovery: only
`MESSAGE_BROKER` and `GATEWAY` are accepted. -/
def isRoleStr (s : String) : Bool := s = "MESSAGE_BROKER" || s = "GATEWAY"

def isJsonRole : Json → Bool
  | .str s => isRoleStr s
  | _ => false

/-- `isMessageNodeInfo`: the payload-entry type guard — `address` present and
a string, `roles` present and an array, every element a known role string.
(No IPv4 validity check appears here.) -/
def isMessageNodeInfo (j : Json) : Bool :=
  match j.get? "address", j.get? "roles" with
  | some (.str _), some (.arr rs) => rs.all isJsonRole
  | _, _ => false

def toRole (s : String) : Option Role :=
  if s = "MESSAGE_BROKER" then some .MESSAGE_BROKER
  else if s = "GATEWAY" then some .GATEWAY
  else none

/-- Reading a validated payload entry into a `MessageNodeInfo`. -/
def toMessageNodeInfo (j : Json) : MessageNodeInfo :=
  { address := match j.get? "address" with | some (.str s) => s | _ => ""
    roles := match j.get? "roles" with
      | some (.arr rs) => rs.filterMap (fun r => match r with | .str s => toRole s | _ => none)
      | _ => [] }

inductive DiscoveryMessageType where
  | JOIN | HELLO | ACK | ELECTION | OK | COORDINATOR | ASSIGN
deriving DecidableEq, Repr

inductive DiscoveryResponseType where
  | HELLO | COORDINATOR | ASSIGN
deriving DecidableEq, Repr

structure DiscoveryParseResult where
  type : DiscoveryMessageType
  parts : List String
  nodeInfo : Option (List MessageNodeInfo) := none
  responseType : Option DiscoveryResponseType := none
deriving DecidableEq, Repr

/-- `Discovery.#parseType`. -/
def parseType (str : String) : Except String DiscoveryMessageType :=
  if str = "JOIN" then .ok .JOIN
  else if str = "HELLO" then .ok .HELLO
  else if str = "ACK" then .ok .ACK
  else if str = "ELECTION" then .ok .ELECTION
  else if str = "OK" then .ok .OK
  else if str = "COORDINATOR" then .ok .COORDINATOR
  else if str = "ASSIGN" then .ok .ASSIGN
  else .error "invalid message type"

/-- The `nodeData.map` loop of `#parseMessageNodeInfo`: validate entries left
to right, aborting at the first invalid one (a JS `map` callback that throws
aborts the traversal). -/
def validateNodeList : List Json → Except String (List MessageNodeInfo)
  | [] => .ok []
  | node :: rest =>
    if isMessageNodeInfo node then
      match validateNodeList rest with
      | .error e => .error e
      | .ok tail => .ok (toMessageNodeInfo node :: tail)
    else .error "not a valid MessageNodeInfo"

/-- `Discovery.#parseMessageNodeInfo`: decode the payload token, require a
JSON array, validate every entry with `isMessageNodeInfo`. -/
def parseMessageNodeInfo (decode : String → Except String Json) (s : String) :
    Except String (List MessageNodeInfo) :=
  match decode s with
  | .error e => .error e
  | .ok (.arr elems) => validateNodeList elems
  | .ok _ => .error "wrong type for a node list - not an array"

/-- `msgSplit[i]` guarded by the source's falsy check `!msgSplit[i]`: a
missing index and the empty-string token are both treated as absent. -/
def tokenAt (tokens : List String) (i : Nat) : Option String :=
  match tokens[i]? with
  | some t => if t = "" then none else some t
  | none => none

/-- `Discovery.#parseHello`. -/
def parseHello (decode : String → Except String Json) (msgSplit : List String) :
    Except String DiscoveryParseResult :=
  match tokenAt msgSplit 1 with
  | none => .error "node list missing - HELLO message must contain a node list"
  | some t =>
    match parseMessageNodeInfo decode t with
    | .error e => .error e
    | .ok ni => .ok { type := .HELLO, parts := msgSplit, nodeInfo := some ni }

/-- `Discovery.#parseAckHello`. -/
def parseAckHello (decode : String → Except String Json) (msgSplit : List String) :
    Except String DiscoveryParseResult :=
  match tokenAt msgSplit 2 with
  | none => .error "invalid ACK message - an ACK HELLO message must contain a node list"
  | some t =>
    match parseMessageNodeInfo decode t with
    | .error e => .error e
    | .ok ni =>
      .ok { type := .ACK, parts := msgSplit, nodeInfo := some ni, responseType := some .HELLO }

/-- `Discovery.#parseAckCoordinator`. -/
def parseAckCoordinator (decode : String → Except String Json) (msgSplit : List String) :
    Except String DiscoveryParseResult :=
  match tokenAt msgSplit 2 with
  | none => .error "invalid ACK message - an ACK COORDINATOR message must contain a node data section"
  | some t =>
    match parseMessageNodeInfo decode t with
    | .error e => .error e
    | .ok ni =>
      .ok { type := .ACK, parts := msgSplit, nodeInfo := some ni,
            responseType := some .COORDINATOR }

/-- `Discovery.#parseAck`: validate the response-type token, then dispatch;
the `ASSIGN` response type passes validation but hits the `default` branch,
which throws. -/
def parseAck (decode : String → Except String Json) (msgSplit : List String) :
    Except String DiscoveryParseResult :=
  match tokenAt msgSplit 1 with
  | none => .error "invalid ACK message - an ACK message must contain the type of the message to which the message is a response to"
  | some rt =>
    if rt = "HELLO" then parseAckHello decode msgSplit
    else if rt = "COORDINATOR" then parseAckCoordinator decode msgSplit
    else if rt = "ASSIGN" then .error "out of response types"
    else .error "invalid response type"

/-- `Discovery.#parseCoordinator`: reads `msgSplit[1]` without a guard;
`JSON.parse(undefined)` throws a `SyntaxError` when the token is absent. -/
def parseCoordinator (decode : String → Except String Json) (msgSplit : List String) :
    Except String DiscoveryParseResult :=
  match msgSplit[1]? with
  | none => .error "SyntaxError"
  | some t =>
    match parseMessageNodeInfo decode t with
    | .error e => .error e
    | .ok ni => .ok { type := .COORDINATOR, parts := msgSplit, nodeInfo := some ni }

/-- `Discovery.#parseDiscoveryMessage` on the space-split token list of a
datagram. -/
def parseDiscoveryMessage (decode : String → Except String Json) (msgSplit : List String) :
    Except String DiscoveryParseResult :=
  match parseType (msgSplit.headD "") with
  | .error e => .error e
  | .ok t =>
    match t with
    | .HELLO => parseHello decode msgSplit
    | .ACK => parseAck decode msgSplit
    | .COORDINATOR => parseCoordinator decode msgSplit
    | _ => .ok { type := t, parts := msgSplit }

def exceptIsOk : Except ε α → Bool
  | .ok _ => true
  | .error _ => false

instance {ε α : Type _} [DecidableEq ε] [DecidableEq α] : DecidableEq (Except ε α) := fun x y =>
  match x, y with
  | .ok a, .ok b =>
    if h : a = b then .isTrue (by rw [h])
    else .isFalse (by intro hc; injection hc; contradiction)
  | .error e, .error f =>
    if h : e = f then .isTrue (by rw [h])
    else .isFalse (by intro hc; injection hc; contradiction)
  | .ok _, .error _ => .isFalse (by intro hc; cases hc)
  | .error _, .ok _ => .isFalse (by intro hc; cases hc)

/-! ## C5: when does the parser fail? -/

/-- A payload entry the codec accepts: an object with a string `address` and
an array `roles` whose members are all drawn from the role set of the types
module imported by Discovery. -/
def ValidEntryJson (j : Json) : Prop :=
  (∃ a : String, j.get? "address" = some (.str a)) ∧
  (∃ rs : List Json, j.get? "roles" = some (.arr rs) ∧
    ∀ r ∈ rs, r = Json.str "MESSAGE_BROKER" ∨ r = Json.str "GATEWAY")

/-- The payload token decodes to a JSON array of acceptable entries. -/
def DecodesToNodeList (decode : String → Except String Json) (s : String) : Prop :=
  ∃ elems, decode s = .ok (Json.arr elems) ∧ ∀ j ∈ elems, ValidEntryJson j

/-- The exact success condition of the parser, stated independently of its
control flow. -/
def ParseSucceedsSpec (decode : String → Except String Json) (msgSplit : List String) : Prop :=
  (msgSplit.headD "" = "JOIN" ∨ msgSplit.headD "" = "ELECTION" ∨
    msgSplit.headD "" = "OK" ∨ msgSplit.headD "" = "ASSIGN")
  ∨ (msgSplit.headD "" = "HELLO" ∧
      ∃ s, tokenAt msgSplit 1 = some s ∧ DecodesToNodeList decode s)
  ∨ (msgSplit.headD "" = "COORDINATOR" ∧
      ∃ s, msgSplit[1]? = some s ∧ DecodesToNodeList decode s)
  ∨ (msgSplit.headD "" = "ACK" ∧
      ∃ rt, tokenAt msgSplit 1 = some rt ∧ (rt = "HELLO" ∨ rt = "COORDINATOR") ∧
        ∃ s, tokenAt msgSplit 2 = some s ∧ DecodesToNodeList decode s)

theorem isMessageNodeInfo_iff (j : Json) : isMessageNodeInfo j = true ↔ ValidEntryJson j := by
  unfold isMessageNodeInfo ValidEntryJson
  constructor
  · intro h
    split at h
    case h_1 a rs ha hr =>
      refine ⟨⟨a, ha⟩, rs, hr, ?_⟩
      intro r hmem
      have := (List.all_eq_true.mp h) r hmem
      cases r <;> simp [isJsonRole, isRoleStr] at this
      rcases this with h1 | h1 <;> simp [h1]
    case h_2 => exact absurd h (by simp)
  · rintro ⟨⟨a, ha⟩, rs, hr, hall⟩
    rw [ha, hr]
    refine List.all_eq_true.mpr ?_
    intro r hmem
    rcases hall r hmem with h1 | h1 <;> simp [h1, isJsonRole, isRoleStr]

theorem validateNodeList_isOk (elems : List Json) :
    exceptIsOk (validateNodeList elems) = true ↔ ∀ j ∈ elems, ValidEntryJson j := by
  induction elems with
  | nil => simp [validateNodeList, exceptIsOk]
  | cons a as ih =>
    unfold validateNodeList
    by_cases ha : isMessageNodeInfo a = true
    · rw [if_pos ha]
      cases hrest : validateNodeList as with
      | error e =>
        rw [hrest] at ih
        simp only [exceptIsOk] at ih ⊢
        constructor
        · intro h; cases h
        · intro hall
          have := ih.mpr fun j hj => hall j (List.mem_cons_of_mem a hj)
          exact absurd this (by simp)
      | ok tail =>
        rw [hrest] at ih
        simp only [exceptIsOk] at ih ⊢
        constructor
        · intro _ j hj
          rcases List.mem_cons.mp hj with rfl | hj'
          · exact (isMessageNodeInfo_iff j).mp ha
          · exact ih.mp trivial j hj'
        · intro _; trivial
    · rw [if_neg ha]
      simp only [exceptIsOk]
      constructor
      · intro h; cases h
      · intro hall
        exact absurd ((isMessageNodeInfo_iff a).mpr (hall a (List.mem_cons_self a as))) ha

theorem parseMessageNodeInfo_isOk (decode : String → Except String Json) (s : String) :
    exceptIsOk (parseMessageNodeInfo decode s) = true ↔ DecodesToNodeList decode s := by
  unfold parseMessageNodeInfo DecodesToNodeList
  cases hd : decode s with
  | error e => simp [exceptIsOk]
  | ok j =>
    cases j with
    | arr elems =>
      show exceptIsOk (validateNodeList elems) = true ↔ _
      rw [validateNodeList_isOk]
      constructor
      · intro h; exact ⟨elems, rfl, h⟩
      · rintro ⟨elems', heq, hall⟩
        injection heq with h1
        injection h1 with h2
        subst h2
        exact hall
    | null => simp [exceptIsOk]
    | bool b => simp [exceptIsOk]
    | num n => simp [exceptIsOk]
    | str t => simp [exceptIsOk]
    | obj fs => simp [exceptIsOk]

theorem parseHello_isOk (decode : String → Except String Json) (ms : List String) :
    exceptIsOk (parseHello decode ms) = true ↔
      ∃ s, tokenAt ms 1 = some s ∧ DecodesToNodeList decode s := by
  unfold parseHello
  cases ht : tokenAt ms 1 with
  | none => simp [exceptIsOk]
  | some t =>
    have := parseMessageNodeInfo_isOk decode t
    cases hp : parseMessageNodeInfo decode t <;> simp [hp, exceptIsOk] at this ⊢ <;> simp [this]

theorem parseAckHello_isOk (decode : String → Except String Json) (ms : List String) :
    exceptIsOk (parseAckHello decode ms) = true ↔
      ∃ s, tokenAt ms 2 = some s ∧ DecodesToNodeList decode s := by
  unfold parseAckHello
  cases ht : tokenAt ms 2 with
  | none => simp [exceptIsOk]
  | some t =>
    have := parseMessageNodeInfo_isOk decode t
    cases hp : parseMessageNodeInfo decode t <;> simp [hp, exceptIsOk] at this ⊢ <;> simp [this]

theorem parseAckCoordinator_isOk (decode : String → Except String Json) (ms : List String) :
    exceptIsOk (parseAckCoordinator decode ms) = true ↔
      ∃ s, tokenAt ms 2 = some s ∧ DecodesToNodeList decode s := by
  unfold parseAckCoordinator
  cases ht : tokenAt ms 2 with
  | none => simp [exceptIsOk]
  | some t =>
    have := parseMessageNodeInfo_isOk decode t
    cases hp : parseMessageNodeInfo decode t <;> simp [hp, exceptIsOk] at this ⊢ <;> simp [this]

theorem parseAck_isOk (decode : String → Except String Json) (ms : List String) :
    exceptIsOk (parseAck decode ms) = true ↔
      ∃ rt, tokenAt ms 1 = some rt ∧ (rt = "HELLO" ∨ rt = "COORDINATOR") ∧
        ∃ s, tokenAt ms 2 = some s ∧ DecodesToNodeList decode s := by
  unfold parseAck
  cases ht : tokenAt ms 1 with
  | none => simp [exceptIsOk]
  | some rt =>
    show exceptIsOk (if rt = "HELLO" then parseAckHello decode ms
      else if rt = "COORDINATOR" then parseAckCoordinator decode ms
      else if rt = "ASSIGN" then Except.error "out of response types"
      else Except.error "invalid response type") = true ↔ _
    by_cases h1 : rt = "HELLO"
    · subst h1
      rw [if_pos rfl, parseAckHello_isOk]
      constructor
      · rintro ⟨s, hs, hd⟩; exact ⟨"HELLO", rfl, Or.inl rfl, s, hs, hd⟩
      · rintro ⟨rt', hrt', _, s, hs, hd⟩; exact ⟨s, hs, hd⟩
    · rw [if_neg h1]
      by_cases h2 : rt = "COORDINATOR"
      · subst h2
        rw [if_pos rfl, parseAckCoordinator_isOk]
        constructor
        · rintro ⟨s, hs, hd⟩; exact ⟨"COORDINATOR", rfl, Or.inr rfl, s, hs, hd⟩
        · rintro ⟨rt', hrt', _, s, hs, hd⟩; exact ⟨s, hs, hd⟩
      · rw [if_neg h2]
        have hfail : exceptIsOk (if rt = "ASSIGN" then
            (Except.error "out of response types" : Except String DiscoveryParseResult)
          else Except.error "invalid response type") = false := by
          by_cases h3 : rt = "ASSIGN" <;> simp [h3, exceptIsOk]
        rw [hfail]
        constructor
        · intro h; cases h
        · rintro ⟨rt', hrt', hor, _⟩
          injection hrt' with h4
          subst h4
          rcases hor with h | h
          · exact (h1 h).elim
          · exact (h2 h).elim

theorem parseCoordinator_isOk (decode : String → Except String Json) (ms : List String) :
    exceptIsOk (parseCoordinator decode ms) = true ↔
      ∃ s, ms[1]? = some s ∧ DecodesToNodeList decode s := by
  unfold parseCoordinator
  cases ht : ms[1]? with
  | none => simp [exceptIsOk]
  | some t =>
    have := parseMessageNodeInfo_isOk decode t
    cases hp : parseMessageNodeInfo decode t <;> simp [hp, exceptIsOk] at this ⊢ <;> simp [this]

/-- C5 (amended): parsing a datagram succeeds exactly when the type token is
one of the seven known types, every required payload token is present and
non-empty, the payload decodes to a JSON array, and every entry is an object
with a string `address` and an array of role strings drawn from
`{MESSAGE_BROKER, GATEWAY}`; equivalently, parsing fails exactly on an
unknown type, a missing payload token, an invalid or non-array payload, a
malformed entry, a role string outside that two-element set, or an
`ACK` whose response type is not `HELLO`/`COORDINATOR`.  IPv4 validity of
entry addresses is not checked, and the role string `EDITING` is rejected. -/
theorem C5_parseDiscoveryMessage_raises_iff (decode : String → Except String Json)
    (msgSplit : List String) :
    exceptIsOk (parseDiscoveryMessage decode msgSplit) = true ↔
      ParseSucceedsSpec decode msgSplit := by
  unfold parseDiscoveryMessage ParseSucceedsSpec parseType
  set t0 := msgSplit.headD "" with ht0
  by_cases h1 : t0 = "JOIN"
  · simp [h1, exceptIsOk]
  · by_cases h2 : t0 = "HELLO"
    · simp [h1, h2, parseHello_isOk]
    · by_cases h3 : t0 = "ACK"
      · simp [h1, h2, h3, parseAck_isOk]
      · by_cases h4 : t0 = "ELECTION"
        · simp [h1, h2, h3, h4, exceptIsOk]
        · by_cases h5 : t0 = "OK"
          · simp [h1, h2, h3, h4, h5, exceptIsOk]
          · by_cases h6 : t0 = "COORDINATOR"
            · simp [h1, h2, h3, h4, h5, h6, parseCoordinator_isOk]
            · by_cases h7 : t0 = "ASSIGN"
              · simp [h1, h2, h3, h4, h5, h6, h7, exceptIsOk]
              · simp [h1, h2, h3, h4, h5, h6, h7, exceptIsOk]

/-- A concrete JSON decoder for the C5 counterexample: token `"IP"` decodes to
a node list whose single entry carries a syntactically invalid IPv4 address;
token `"ED"` decodes to a node list whose single entry carries the role string
`EDITING`. -/
def decodeCex : String → Except String Json := fun s =>
  if s = "IP" then
    .ok (.arr [.obj [("address", .str "999.999.999.999"), ("roles", .arr [])]])
  else if s = "ED" then
    .ok (.arr [.obj [("address", .str "10.0.0.7"), ("roles", .arr [.str "EDITING"])]])
  else .error "unexpected token"

/-- C5 counterexample: a HELLO payload entry with an invalid IPv4 address
parses successfully (the claim requires failure), while a payload entry with
the role string `EDITING` — a member of the claim's enumerated role set —
fails to parse (the claim requires success). -/
theorem C5_counterexample :
    exceptIsOk (parseDiscoveryMessage decodeCex ["HELLO", "IP"]) = true
    ∧ validAddress "999.999.999.999" = false
    ∧ exceptIsOk (parseDiscoveryMessage decodeCex ["HELLO", "ED"]) = false := by decide

/-! ## Discovery state machine (`Discovery.ts`)

The mutable state of a `Discovery` instance, with timer registries modelled
as lists of pending keys, and the observable effects (socket sends and
emitted events) collected as outputs. -/

inductive WireMsg where
  | join
  | hello (nodes : List MessageNodeInfo)
  | ackHello (nodes : List MessageNodeInfo)
  | election
  | ok
  | coordinator (nodes : List MessageNodeInfo)
  | ackCoordinator (nodes : List MessageNodeInfo)
deriving DecidableEq, Repr

inductive Output where
  | send (dest : String) (msg : WireMsg)
  | nodesEvent (snapshot : List NodeInfo)
  | rolesEvent (snapshot : List NodeInfo) (source : String)
deriving DecidableEq, Repr

/-- The `{address, roles}` projection used whenever a node list is serialized
onto the wire. -/
def toMsgList (nodes : List NodeInfo) : List MessageNodeInfo :=
  nodes.map fun n => ⟨n.address, n.roles⟩

structure DState where
  nodes : List NodeInfo
  messageBroker : Option RoleData
  gateway : Option RoleData
  joinInterval : Bool
  helloInterval : List String
  helloTimeout : List String
  preElectionTimeout : Bool
  electionInterval : List String
  electionTimeout : List String
  receivedOK : Bool
  coordinatorInterval : List String
deriving DecidableEq, Repr

/-- Keying a timer registry (`registry[key] = setInterval(...)`); rekeying an
existing key keeps the key set unchanged. -/
def addKey (k : String) (r : List String) : List String :=
  if k ∈ r then r else r ++ [k]

/-- `clearInterval(registry[key]); delete registry[key]`. -/
def removeKey (k : String) (r : List String) : List String := r.erase k

/-- Replace the element at an index, leaving the list unchanged when the
index is out of range. -/
def listModify (f : α → α) : Nat → List α → List α
  | _, [] => []
  | 0, a :: as => f a :: as
  | n + 1, a :: as => a :: listModify f n as

/-! ### `#addNodes` and its helpers -/

/-- One iteration of the `nodeList.forEach` loop of `#addNodes`; returns the
updated nodes array and whether a new node was pushed.  A self entry is
rewritten at the index found for `HOST` with the locally known `PRIORITY`
(when `HOST` is absent, `findIndex` yields `-1` and the JS assignment to
index `-1` creates no array element, so the array is unchanged). -/
def mergeNode (env : Env) (nodes : List NodeInfo) (node : MessageNodeInfo) :
    List NodeInfo × Bool :=
  if node.address = env.HOST then
    match nodes.findIdx? (fun n => n.address = env.HOST) with
    | some i => (nodes.set i ⟨node.address, env.PRIORITY, node.roles⟩, false)
    | none => (nodes, false)
  else if (nodes.find? (fun n => n.address = node.address)).isSome then
    (nodes, false)
  else
    (nodes ++ [⟨node.address, getPriorityNumber node.address env.netmask, node.roles⟩], true)

/-- The whole `nodeList.forEach` loop: thread the nodes array through
`mergeNode`, accumulating the `newNodes` flag. -/
def mergeNodes (env : Env) (nodes : List NodeInfo) (nodeList : List MessageNodeInfo) :
    List NodeInfo × Bool :=
  nodeList.foldl
    (fun acc node =>
      let r := mergeNode env acc.1 node
      (r.1, acc.2 || r.2))
    (nodes, false)

/-- `#setMessageBrokerNode`: record the broker (with a locally computed
priority) when its address changed; returns whether the local node just
became the broker. -/
def setMessageBrokerNode (env : Env) (mb : Option RoleData) (node : MessageNodeInfo) :
    Option RoleData × Bool :=
  if (match mb with | none => true | some r => r.address ≠ node.address) then
    (some ⟨node.address, getPriorityNumber node.address env.netmask⟩,
     node.address = env.HOST)
  else (mb, false)

/-- `#setGatewayNode`. -/
def setGatewayNode (env : Env) (gw : Option RoleData) (node : MessageNodeInfo) :
    Option RoleData × Bool :=
  if (match gw with | none => true | some r => r.address ≠ node.address) then
    (some ⟨node.address, getPriorityNumber node.address env.netmask⟩,
     node.address = env.HOST)
  else (gw, false)

/-- `#findRoles`: look for broker and gateway roles in the received node
list; throws when exactly one of the two roles is present. -/
def findRoles (env : Env) (mb gw : Option RoleData) (nodeList : List MessageNodeInfo) :
    Except Unit (Option RoleData × Option RoleData × Bool) :=
  let messageBroker := nodeList.find? fun node => Role.MESSAGE_BROKER ∈ node.roles
  let gateway := nodeList.find? fun node => Role.GATEWAY ∈ node.roles
  match messageBroker, gateway with
  | some mbn, some gwn =>
    let rmb := setMessageBrokerNode env mb mbn
    let rgw := setGatewayNode env gw gwn
    .ok (rmb.1, rgw.1, rgw.2 || rmb.2)
  | some _, none => .error ()
  | none, some _ => .error ()
  | none, none => .ok (mb, gw, false)

/-- `#isHighestOrLowestPriority`: true when broker or gateway is still
unknown, or some node in the list beats the known broker from above or the
known gateway from below. -/
def isHighestOrLowestPriority (env : Env) (mb gw : Option RoleData)
    (nodeList : List MessageNodeInfo) : Bool :=
  match mb, gw with
  | some m, some g =>
    (nodeList.find? fun node =>
      let priority := getPriorityNumber node.address env.netmask
      priority > m.priority || priority < g.priority).isSome
  | _, _ => true

/-- `#addNodes`: merge a received node list, update broker/gateway knowledge,
arm the pre-election timeout, and emit events.  The third component records
whether `#findRoles` threw (the exception propagates to the caller with the
nodes array already mutated).  The misspelled `'noles'` emit of the source is
not modelled separately from the `'roles'` emit it precedes. -/
def addNodes (env : Env) (st : DState) (nodeList : List MessageNodeInfo) :
    DState × List Output × Bool :=
  let addingForTheFirstTime := decide (st.nodes.length ≤ 1)
  let merged := mergeNodes env st.nodes nodeList
  let newNodes := merged.2
  let st1 := {st with nodes := merged.1}
  match findRoles env st1.messageBroker st1.gateway nodeList with
  | .error _ => (st1, [], true)
  | .ok (mb, gw, ownRoleChanged) =>
    let st2 := {st1 with messageBroker := mb, gateway := gw}
    let branch :=
      if ownRoleChanged then
        (st2, [Output.rolesEvent st2.nodes "#addNodes"])
      else if newNodes && isHighestOrLowestPriority env st2.messageBroker st2.gateway nodeList then
        ({st2 with preElectionTimeout := true}, [Output.nodesEvent st2.nodes])
      else (st2, [])
    if addingForTheFirstTime && !ownRoleChanged then
      (branch.1, branch.2 ++ [Output.rolesEvent branch.1.nodes "#addNodes"], false)
    else (branch.1, branch.2, false)

/-! ### Discovery protocol handlers -/

def stopSendingJoin (st : DState) : DState := {st with joinInterval := false}

def stopSendingHello (st : DState) (sender : String) : DState :=
  {st with helloInterval := removeKey sender st.helloInterval,
           helloTimeout := removeKey sender st.helloTimeout}

/-- `#handleJoin`. -/
def handleJoin (env : Env) (st : DState) (sender : String) : DState × List Output :=
  if sender ≠ env.HOST ∧ sender ∉ st.helloInterval then
    let r := addNodes env st [⟨sender, []⟩]
    if r.2.2 then (r.1, r.2.1)
    else if sender ∉ r.1.helloInterval then
      ({r.1 with helloInterval := addKey sender r.1.helloInterval,
                 helloTimeout := addKey sender r.1.helloTimeout},
       r.2.1 ++ [Output.send sender (WireMsg.hello (toMsgList r.1.nodes))])
    else (r.1, r.2.1)
  else (st, [])

/-- `#handleHello`. -/
def handleHello (env : Env) (st : DState) (nodeInfo : Option (List MessageNodeInfo))
    (sender : String) : DState × List Output :=
  let st1 := stopSendingJoin st
  let r := match nodeInfo with
    | some ni => addNodes env st1 ni
    | none => (st1, [], false)
  if r.2.2 then (r.1, r.2.1)
  else
    let outs := r.2.1 ++ [Output.send sender (WireMsg.ackHello (toMsgList r.1.nodes))]
    if sender ∈ r.1.helloInterval then (stopSendingHello r.1 sender, outs)
    else (r.1, outs)

/-- `#handleAckHello` (note: only the HELLO interval key is deleted here, the
HELLO timeout entry is left in place). -/
def handleAckHello (env : Env) (st : DState) (nodeInfo : Option (List MessageNodeInfo))
    (sender : String) : DState × List Output :=
  let st1 :=
    if sender ∈ st.helloInterval then
      {st with helloInterval := removeKey sender st.helloInterval}
    else st
  let r := match nodeInfo with
    | some ni => addNodes env st1 ni
    | none => (st1, [], false)
  if r.2.2 then (r.1, r.2.1)
  else (stopSendingJoin r.1, r.2.1)

/-- `#handleAckCoordinator`. -/
def handleAckCoordinator (st : DState) (sender : String) : DState :=
  {st with coordinatorInterval := removeKey sender st.coordinatorInterval}

/-! ### Election engine -/

/-- `#stopElection`: clear the pre-election timeout and both election
registries. -/
def stopElection (st : DState) : DState :=
  {st with preElectionTimeout := false, electionInterval := [], electionTimeout := []}

/-- `#handleOK`.  The source sets `#receivedOK = true` first and only then
checks validity, so the `else if (!this.#receivedOK) throw ...` branch can
never run: an unsolicited OK is accepted silently with `#receivedOK` left
set. -/
def handleOK (st : DState) (sender : String) : DState :=
  let st1 := {st with receivedOK := true}
  if sender ∈ st1.electionInterval then stopElection st1 else st1

/-- `#handleElection`: a sender whose locally computed priority is at least
ours makes the handler throw (caught by the dispatcher, no effect);
otherwise reply OK.  No state is mutated on either path. -/
def handleElection (env : Env) (st : DState) (sender : String) : DState × List Output :=
  if env.PRIORITY ≤ getPriorityNumber sender env.netmask then (st, [])
  else (st, [Output.send sender WireMsg.ok])

/-- The role-stripping step of `#setRoles` for one target role:
`findIndex` followed by an unguarded truthiness test.  Index 0 is falsy, so a
role sitting at position 0 is kept; `-1` (role absent) is truthy and
`splice(-1, 1)` removes the last element. -/
def cleanupSplice (target : Role) (roles : List Role) : List Role :=
  match roles.findIdx? (fun r => r = target) with
  | some 0 => roles
  | some i => roles.eraseIdx i
  | none => roles.dropLast

/-- The body of the `nodes.map` cleanup in `#setRoles`: GATEWAY is spliced
first, then MESSAGE_BROKER. -/
def cleanupRoles (roles : List Role) : List Role :=
  cleanupSplice .MESSAGE_BROKER (cleanupSplice .GATEWAY roles)

/-- `#setRoles`: strip previous GATEWAY/MESSAGE_BROKER roles, sort ascending
by priority (the JS comparator `a.priority > b.priority ? 1 : -1`), give the
head GATEWAY, give `HOST` MESSAGE_BROKER, store and emit.  An empty node
array or an absent `HOST` entry makes the source throw a `TypeError`
(`nodes[0]`/`nodes[-1]` is `undefined`); the error value carries the nodes as
already mutated (element order is irrelevant to every property proved about
these states). -/
def setRoles (env : Env) (st : DState) : Except DState (DState × List Output) :=
  let cleaned := st.nodes.map fun n => {n with roles := cleanupRoles n.roles}
  let sorted := cleaned.mergeSort fun a b => decide (a.priority ≤ b.priority)
  match sorted with
  | [] => .error {st with nodes := cleaned}
  | g :: rest =>
    let withGw := {g with roles := g.roles ++ [Role.GATEWAY]} :: rest
    match withGw.findIdx? (fun n => n.address = env.HOST) with
    | none => .error {st with nodes := withGw}
    | some i =>
      let nodes2 := listModify (fun n => {n with roles := n.roles ++ [Role.MESSAGE_BROKER]}) i withGw
      let st1 := {st with nodes := nodes2}
      .ok (st1, [Output.rolesEvent st1.nodes "#setRoles"])

/-- `#sendCoordinator`: set roles, then start a COORDINATOR retry interval
toward every other member, all carrying the same serialized node list. -/
def sendCoordinator (env : Env) (st : DState) : Except DState (DState × List Output) :=
  match setRoles env st with
  | .error s => .error s
  | .ok (st1, outs) =>
    let payload := toMsgList st1.nodes
    let recipients := (st1.nodes.filter fun n => n.address ≠ env.HOST).map (·.address)
    let st2 := {st1 with
      coordinatorInterval := recipients.foldl (fun r k => addKey k r) st1.coordinatorInterval}
    .ok (st2, outs ++ recipients.map fun a => Output.send a (WireMsg.coordinator payload))

/-- `#sendElection`: arm an ELECTION retry interval and timeout per
higher-priority node. -/
def sendElection (st : DState) (higherPriorities : List NodeInfo) :
    DState × List Output :=
  higherPriorities.foldl
    (fun acc node =>
      ({acc.1 with electionInterval := addKey node.address acc.1.electionInterval,
                   electionTimeout := addKey node.address acc.1.electionTimeout},
       acc.2 ++ [Output.send node.address WireMsg.election]))
    (st, [])

/-- `#startElection`. -/
def startElection (env : Env) (st : DState) : Except DState (DState × List Output) :=
  let st1 := {st with receivedOK := false}
  let higherPriorities := st1.nodes.filter fun n => n.priority > env.PRIORITY
  if higherPriorities.length > 0 then .ok (sendElection st1 higherPriorities)
  else sendCoordinator env st1

/-- The node-eviction step of the election-timeout callback:
`nodes.splice(nodes.findIndex(...), 1)` with the index unguarded, so an
absent address removes the last entry instead (`splice(-1, 1)`). -/
def spliceRemove (nodes : List NodeInfo) (address : String) : List NodeInfo :=
  match nodes.findIdx? (fun n => n.address = address) with
  | some i => nodes.eraseIdx i
  | none => nodes.dropLast

/-- The `#electionTimeout[h]` callback in `#sendElection`: clear the ELECTION
interval for `h`, evict `h` from the nodes array, and — whenever no OK has
been received — become the coordinator.  (The stale `#electionTimeout` key is
not deleted by the source.) -/
def electionTimeoutFire (env : Env) (st : DState) (h : String) : DState × List Output :=
  let st2 := {st with
    electionInterval := removeKey h st.electionInterval
    nodes := spliceRemove st.nodes h}
  if st2.receivedOK then (st2, [])
  else
    match sendCoordinator env st2 with
    | .error s => (s, [])
    | .ok r => r

/-- `#updateRoles`: overwrite roles of known entries, append unknown entries
with locally computed priorities. -/
def updateRoles (env : Env) (nodes : List NodeInfo) (nodeData : List MessageNodeInfo) :
    List NodeInfo :=
  nodeData.foldl
    (fun ns node =>
      match ns.findIdx? (fun n => n.address = node.address) with
      | some i => listModify (fun n => {n with roles := node.roles}) i ns
      | none => ns ++ [⟨node.address, getPriorityNumber node.address env.netmask, node.roles⟩])
    nodes

/-- `#handleCoordinator` as observed through the dispatcher (both throws are
caught there): a sender whose locally computed priority does not exceed ours
is rejected before any mutation; otherwise election state is stopped, an
ACK COORDINATOR echoing the payload is sent, roles are updated and emitted. -/
def handleCoordinator (env : Env) (st : DState) (nodeInfo : Option (List MessageNodeInfo))
    (sender : String) : DState × List Output :=
  if getPriorityNumber sender env.netmask ≤ env.PRIORITY then (st, [])
  else
    let st1 := stopElection st
    match nodeInfo with
    | none => (st1, [])
    | some ni =>
      let st2 := {st1 with nodes := updateRoles env st1.nodes ni}
      (st2, [Output.send sender (WireMsg.ackCoordinator ni),
             Output.rolesEvent st2.nodes "#handleCoordinator"])

/-! ### The event loop -/

/-- Initial state of the constructor: the nodes array holds only the local
node, JOIN broadcasting is running, every registry is empty. -/
def initState (env : Env) : DState :=
  { nodes := [⟨env.HOST, env.PRIORITY, []⟩]
    messageBroker := none
    gateway := none
    joinInterval := true
    helloInterval := []
    helloTimeout := []
    preElectionTimeout := false
    electionInterval := []
    electionTimeout := []
    receivedOK := false
    coordinatorInterval := [] }

/-- One dispatched unit of work: a successfully parsed datagram routed by
type, or a timer callback. -/
inductive Event where
  | join (sender : String)
  | hello (nodeInfo : Option (List MessageNodeInfo)) (sender : String)
  | ackHello (nodeInfo : Option (List MessageNodeInfo)) (sender : String)
  | ackCoordinator (sender : String)
  | election (sender : String)
  | okMsg (sender : String)
  | coordinator (nodeInfo : Option (List MessageNodeInfo)) (sender : String)
  | preElectionFire
  | electionTimeout (address : String)
  | helloTimeoutFire (address : String)
  | coordinatorTimeoutFire (address : String)
deriving DecidableEq, Repr

/-- The dispatch loop: apply one event to the state, collecting outputs.
Timer events fire only while their key is pending; the HELLO timeout callback
deletes only the HELLO interval key (as the source does). -/
def applyEvent (env : Env) (st : DState) : Event → DState × List Output
  | .join sender => handleJoin env st sender
  | .hello ni sender => handleHello env st ni sender
  | .ackHello ni sender => handleAckHello env st ni sender
  | .ackCoordinator sender => (handleAckCoordinator st sender, [])
  | .election sender => handleElection env st sender
  | .okMsg sender => (handleOK st sender, [])
  | .coordinator ni sender => handleCoordinator env st ni sender
  | .preElectionFire =>
    if st.preElectionTimeout then
      match startElection env {st with preElectionTimeout := false} with
      | .error s => (s, [])
      | .ok r => r
    else (st, [])
  | .electionTimeout address =>
    if address ∈ st.electionTimeout then electionTimeoutFire env st address
    else (st, [])
  | .helloTimeoutFire address =>
    if address ∈ st.helloTimeout then
      ({st with helloInterval := removeKey address st.helloInterval}, [])
    else (st, [])
  | .coordinatorTimeoutFire address =>
    ({st with coordinatorInterval := removeKey address st.coordinatorInterval}, [])

/-- States reachable from startup by dispatching events. -/
inductive Reachable (env : Env) : DState → Prop where
  | init : Reachable env (initState env)
  | step {s : DState} (e : Event) : Reachable env s → Reachable env (applyEvent env s e).1

/-! ## General list lemmas used below -/

theorem findIdx?_decomp {α : Type _} {p : α → Bool} :
    ∀ {l : List α} {i : Nat}, l.findIdx? p = some i →
      ∃ l₁ x l₂, l = l₁ ++ x :: l₂ ∧ l₁.length = i ∧ p x = true ∧ ∀ y ∈ l₁, p y = false := by
  intro l
  induction l with
  | nil => intro i h; simp at h
  | cons a as ih =>
    intro i h
    rw [List.findIdx?_cons] at h
    by_cases hp : p a = true
    · rw [if_pos hp] at h
      injection h with h'
      exact ⟨[], a, as, by simp, by simp [← h'], hp, by simp⟩
    · rw [if_neg hp] at h
      rw [List.findIdx?_start_succ] at h
      cases hk : as.findIdx? p with
      | none => rw [hk] at h; simp at h
      | some k =>
        rw [hk] at h
        simp only [Option.map_some'] at h
        injection h with h'
        obtain ⟨l₁, x, l₂, hl, hlen, hx, hall⟩ := ih hk
        refine ⟨a :: l₁, x, l₂, by simp [hl], by simp [hlen]; omega, hx, ?_⟩
        intro y hy
        rcases List.mem_cons.mp hy with rfl | hy'
        · exact Bool.not_eq_true _ ▸ eq_false_of_ne_true hp
        · exact hall y hy'

theorem eraseIdx_append_length {α : Type _} {l₁ l₂ : List α} {x : α} :
    (l₁ ++ x :: l₂).eraseIdx l₁.length = l₁ ++ l₂ := by
  induction l₁ with
  | nil => simp
  | cons a as ih => simp [ih]

theorem listModify_append_length {α : Type _} {f : α → α} {l₁ l₂ : List α} {x : α} :
    listModify f l₁.length (l₁ ++ x :: l₂) = l₁ ++ f x :: l₂ := by
  induction l₁ with
  | nil => simp [listModify]
  | cons a as ih => simp [listModify, ih]

/-! ## C10: the unguarded eviction splice -/

/-- C10: when the election timeout for address `h` evicts from a non-empty
nodes list, the first entry with address `h` is removed exactly when present;
when no entry with address `h` is present, the last entry is removed instead;
either way the list shrinks by one. -/
theorem C10_spliceRemove_spec (nodes : List NodeInfo) (h : String) (hne : nodes ≠ []) :
    ((∃ n ∈ nodes, n.address = h) →
      ∃ l₁ n l₂, nodes = l₁ ++ n :: l₂ ∧ n.address = h ∧ (∀ m ∈ l₁, m.address ≠ h) ∧
        spliceRemove nodes h = l₁ ++ l₂)
    ∧ ((∀ n ∈ nodes, n.address ≠ h) → spliceRemove nodes h = nodes.dropLast)
    ∧ (spliceRemove nodes h).length + 1 = nodes.length := by
  cases hidx : nodes.findIdx? (fun n => n.address = h) with
  | some i =>
    have hs : spliceRemove nodes h = nodes.eraseIdx i := by
      unfold spliceRemove
      rw [hidx]
    obtain ⟨l₁, x, l₂, hl, hlen, hx, hall⟩ := findIdx?_decomp hidx
    subst hl
    refine ⟨?_, ?_, ?_⟩
    · intro _
      refine ⟨l₁, x, l₂, rfl, by simpa using hx, ?_, ?_⟩
      · intro m hm
        simpa using hall m hm
      · rw [hs, ← hlen, eraseIdx_append_length]
    · intro hnone
      exact absurd (by simpa using hx) (hnone x (by simp))
    · rw [hs, ← hlen, eraseIdx_append_length]
      simp [List.length_append]
      omega
  | none =>
    have hs : spliceRemove nodes h = nodes.dropLast := by
      unfold spliceRemove
      rw [hidx]
    have hfalse := List.findIdx?_eq_none_iff.mp hidx
    refine ⟨?_, fun _ => hs, ?_⟩
    · rintro ⟨n, hn, ha⟩
      have := hfalse n hn
      simp at this
      exact absurd ha this
    · rw [hs]
      cases nodes with
      | nil => exact absurd rfl hne
      | cons a as => simp

/-- Witness for C10 at a concrete one-element list and an absent address. -/
theorem C10_spliceRemove_spec_witness :
    ([(⟨"10.0.0.1", 1, []⟩ : NodeInfo)] ≠ []) ∧
    (((∃ n ∈ [(⟨"10.0.0.1", 1, []⟩ : NodeInfo)], n.address = "10.0.0.9") →
      ∃ l₁ n l₂, [(⟨"10.0.0.1", 1, []⟩ : NodeInfo)] = l₁ ++ n :: l₂ ∧ n.address = "10.0.0.9" ∧
        (∀ m ∈ l₁, m.address ≠ "10.0.0.9") ∧
        spliceRemove [(⟨"10.0.0.1", 1, []⟩ : NodeInfo)] "10.0.0.9" = l₁ ++ l₂)
    ∧ ((∀ n ∈ [(⟨"10.0.0.1", 1, []⟩ : NodeInfo)], n.address ≠ "10.0.0.9") →
        spliceRemove [(⟨"10.0.0.1", 1, []⟩ : NodeInfo)] "10.0.0.9" =
          [(⟨"10.0.0.1", 1, []⟩ : NodeInfo)].dropLast)
    ∧ (spliceRemove [(⟨"10.0.0.1", 1, []⟩ : NodeInfo)] "10.0.0.9").length + 1 =
        [(⟨"10.0.0.1", 1, []⟩ : NodeInfo)].length) :=
  ⟨by decide, C10_spliceRemove_spec _ _ (by decide)⟩

/-! ## C6: invalid COORDINATOR is dropped atomically -/

/-- C6: for every state and every COORDINATOR datagram whose sender's locally
computed priority is at most the local priority, the handler returns the
state unchanged and produces no output: no nodes or role change, no timer
change, no ACK, no roles event. -/
theorem C6_invalid_coordinator_noop (env : Env) (st : DState)
    (nodeInfo : Option (List MessageNodeInfo)) (sender : String)
    (h : getPriorityNumber sender env.netmask ≤ env.PRIORITY) :
    handleCoordinator env st nodeInfo sender = (st, []) := by
  unfold handleCoordinator
  rw [if_pos h]

/-- Witness for C6: a sender with priority 2 against a local node with
priority 5. -/
theorem C6_invalid_coordinator_noop_witness :
    getPriorityNumber "10.0.0.2" "255.255.255.0" ≤ (Env.mk "10.0.0.5" "255.255.255.0").PRIORITY
    ∧ handleCoordinator (Env.mk "10.0.0.5" "255.255.255.0")
        (initState (Env.mk "10.0.0.5" "255.255.255.0")) none "10.0.0.2"
      = (initState (Env.mk "10.0.0.5" "255.255.255.0"), []) :=
  ⟨by decide, C6_invalid_coordinator_noop _ _ _ _ (by decide)⟩

/-! ## C8: unsolicited OK -/

/-- C8 (code bug): in a state with no pending ELECTION transaction at all and
`receivedOK = false`, receiving an OK sets `receivedOK` to `true` — a state
change — because `#handleOK` assigns `#receivedOK = true` before its validity
check, leaving the `else if (!this.#receivedOK) throw` branch unreachable. -/
theorem C8_handleOK_mutates_on_unsolicited :
    (initState (Env.mk "10.0.0.5" "255.255.255.0")).electionInterval = []
    ∧ (initState (Env.mk "10.0.0.5" "255.255.255.0")).receivedOK = false
    ∧ (handleOK (initState (Env.mk "10.0.0.5" "255.255.255.0")) "10.0.0.9").receivedOK = true
    ∧ handleOK (initState (Env.mk "10.0.0.5" "255.255.255.0")) "10.0.0.9"
        ≠ initState (Env.mk "10.0.0.5" "255.255.255.0") := by decide

/-! ## C1 and C2: the leader path (`#setRoles`, `#sendCoordinator`) -/

/-- The cleanup pass of `#setRoles` empties a roles list of length at most
one.  (On longer lists the truthiness bug keeps roles: see the
counterexamples.) -/
theorem cleanupRoles_of_short {roles : List Role} (h : roles.length ≤ 1) :
    cleanupRoles roles = [] := by
  match roles with
  | [] => rfl
  | [r] => cases r <;> rfl
  | r₁ :: r₂ :: rest => simp at h

/-! ### `listModify` lemmas -/

theorem findIdx?_get {α : Type _} {p : α → Bool} :
    ∀ {l : List α} {i : Nat}, l.findIdx? p = some i →
      ∃ hi : i < l.length, p (l.get ⟨i, hi⟩) = true := by
  intro l
  induction l with
  | nil => intro i h; simp at h
  | cons a as ih =>
    intro i h
    rw [List.findIdx?_cons] at h
    by_cases hp : p a = true
    · rw [if_pos hp] at h
      injection h with h'
      subst h'
      exact ⟨by simp, hp⟩
    · rw [if_neg hp, List.findIdx?_start_succ] at h
      cases hk : as.findIdx? p with
      | none => rw [hk] at h; simp at h
      | some k =>
        rw [hk] at h
        simp only [Option.map_some'] at h
        injection h with h'
        subst h'
        obtain ⟨hik, hpk⟩ := ih hk
        exact ⟨Nat.succ_lt_succ hik, hpk⟩

theorem listModify_mem {α : Type _} {f : α → α} :
    ∀ {i : Nat} {l : List α} {n : α}, n ∈ listModify f i l →
      n ∈ l ∨ ∃ hi : i < l.length, n = f (l.get ⟨i, hi⟩) := by
  intro i l
  induction l generalizing i with
  | nil => intro n h; simp [listModify] at h
  | cons a as ih =>
    intro n h
    cases i with
    | zero =>
      simp only [listModify] at h
      rcases List.mem_cons.mp h with rfl | h'
      · exact Or.inr ⟨by simp, rfl⟩
      · exact Or.inl (List.mem_cons_of_mem _ h')
    | succ j =>
      simp only [listModify] at h
      rcases List.mem_cons.mp h with rfl | h'
      · exact Or.inl (List.mem_cons_self _ _)
      · rcases ih h' with h'' | ⟨hj, rfl⟩
        · exact Or.inl (List.mem_cons_of_mem _ h'')
        · exact Or.inr ⟨Nat.succ_lt_succ hj, rfl⟩

theorem listModify_get_mem {α : Type _} {f : α → α} :
    ∀ {i : Nat} {l : List α} (hi : i < l.length), f (l.get ⟨i, hi⟩) ∈ listModify f i l := by
  intro i l
  induction l generalizing i with
  | nil => intro hi; simp at hi
  | cons a as ih =>
    intro hi
    cases i with
    | zero => simp [listModify]
    | succ j =>
      simp only [listModify]
      exact List.mem_cons_of_mem _ (ih (Nat.lt_of_succ_lt_succ hi))

theorem listModify_map_of_preserve {α β : Type _} (f : α → α) (pr : α → β)
    (hpr : ∀ x, pr (f x) = pr x) :
    ∀ (i : Nat) (l : List α), (listModify f i l).map pr = l.map pr := by
  intro i l
  induction l generalizing i with
  | nil => simp [listModify]
  | cons a as ih =>
    cases i with
    | zero => simp [listModify, hpr]
    | succ j => simp [listModify, ih]

theorem listModify_countP_of_preserve {α : Type _} (f : α → α) (p : α → Bool)
    (hp : ∀ x, p (f x) = p x) :
    ∀ (i : Nat) (l : List α), (listModify f i l).countP p = l.countP p := by
  intro i l
  induction l generalizing i with
  | nil => simp [listModify]
  | cons a as ih =>
    cases i with
    | zero => simp [listModify, List.countP_cons, hp]
    | succ j => simp [listModify, List.countP_cons, ih]

theorem listModify_countP_one {α : Type _} {f : α → α} {p : α → Bool}
    (hset : ∀ x, p x = false → p (f x) = true) :
    ∀ {i : Nat} {l : List α}, i < l.length → (∀ n ∈ l, p n = false) →
      (listModify f i l).countP p = 1 := by
  intro i l
  induction l generalizing i with
  | nil => intro hi; simp at hi
  | cons a as ih =>
    intro hi hall
    cases i with
    | zero =>
      have hz : as.countP p = 0 :=
        List.countP_eq_zero.mpr fun m hm => by
          simp [hall m (List.mem_cons_of_mem a hm)]
      simp [listModify, List.countP_cons, hz,
        hset a (hall a (List.mem_cons_self a as))]
    | succ j =>
      have := ih (Nat.lt_of_succ_lt_succ hi) fun m hm => hall m (List.mem_cons_of_mem a hm)
      simp [listModify, List.countP_cons, this, hall a (List.mem_cons_self a as)]

/-- `#setRoles` on a state whose entries each carry at most one role and
whose nodes list contains the local node: it succeeds, and in the resulting
nodes list the local node's entry is the only one holding MESSAGE_BROKER, a
minimum-priority entry is the only one holding GATEWAY, and addresses with
priorities are preserved up to permutation. -/
theorem setRoles_clean (env : Env) (st : DState)
    (hhost : ∃ n ∈ st.nodes, n.address = env.HOST)
    (hclean : ∀ n ∈ st.nodes, n.roles.length ≤ 1) :
    ∃ ns, setRoles env st = .ok ({st with nodes := ns}, [Output.rolesEvent ns "#setRoles"]) ∧
      (∀ n ∈ ns, Role.MESSAGE_BROKER ∈ n.roles → n.address = env.HOST) ∧
      (∀ n ∈ ns, Role.GATEWAY ∈ n.roles → ∀ m ∈ ns, n.priority ≤ m.priority) ∧
      ns.countP (fun n => decide (Role.MESSAGE_BROKER ∈ n.roles)) = 1 ∧
      ns.countP (fun n => decide (Role.GATEWAY ∈ n.roles)) = 1 ∧
      (∃ n ∈ ns, n.address = env.HOST ∧ Role.MESSAGE_BROKER ∈ n.roles) ∧
      (∃ n ∈ ns, Role.GATEWAY ∈ n.roles ∧ ∀ m ∈ ns, n.priority ≤ m.priority) ∧
      List.Perm (ns.map fun n => (n.address, n.priority))
        (st.nodes.map fun n => (n.address, n.priority)) := by
  obtain ⟨h0, h0mem, h0addr⟩ := hhost
  have hclroles : ∀ n ∈ st.nodes.map (fun n => {n with roles := cleanupRoles n.roles}),
      n.roles = [] := by
    intro n hn
    obtain ⟨m, hm, rfl⟩ := List.mem_map.mp hn
    exact cleanupRoles_of_short (hclean m hm)
  have hprmap : ((st.nodes.map (fun n => {n with roles := cleanupRoles n.roles})).map
        fun n => (n.address, n.priority)) = st.nodes.map fun n => (n.address, n.priority) := by
    rw [List.map_map]
    rfl
  have hsorted : ((st.nodes.map (fun n => {n with roles := cleanupRoles n.roles})).mergeSort
      (fun a b => decide (a.priority ≤ b.priority))).Pairwise
        (fun a b => decide (a.priority ≤ b.priority)) :=
    List.sorted_mergeSort
      (fun a b c hab hbc => by
        simp only [decide_eq_true_eq] at hab hbc ⊢
        omega)
      (fun a b => by
        simp only [Bool.or_eq_true, decide_eq_true_eq]
        exact Nat.le_total a.priority b.priority)
      _
  have hperm : List.Perm ((st.nodes.map (fun n => {n with roles := cleanupRoles n.roles})).mergeSort
      (fun a b => decide (a.priority ≤ b.priority)))
        (st.nodes.map (fun n => {n with roles := cleanupRoles n.roles})) :=
    List.mergeSort_perm _ _
  cases hms : (st.nodes.map (fun n => {n with roles := cleanupRoles n.roles})).mergeSort
      (fun a b => decide (a.priority ≤ b.priority)) with
  | nil =>
    exfalso
    rw [hms] at hperm
    have hnil : st.nodes.map (fun n => {n with roles := cleanupRoles n.roles}) = [] :=
      (List.perm_nil.mp hperm.symm)
    have : st.nodes = [] := List.map_eq_nil_iff.mp hnil
    rw [this] at h0mem
    cases h0mem
  | cons g rest =>
    rw [hms] at hperm hsorted
    have hg : g.roles = [] := hclroles g (hperm.mem_iff.mp (by simp))
    have hrest : ∀ m ∈ rest, m.roles = [] :=
      fun m hm => hclroles m (hperm.mem_iff.mp (by simp [hm]))
    have hmin : ∀ m ∈ rest, g.priority ≤ m.priority := by
      intro m hm
      have := (List.pairwise_cons.mp hsorted).1 m hm
      simpa using this
    have hg'roles : ({g with roles := g.roles ++ [Role.GATEWAY]} : NodeInfo).roles
        = [Role.GATEWAY] := by simp [hg]
    have hhostmem : ∃ n ∈ ({g with roles := g.roles ++ [Role.GATEWAY]} :: rest),
        n.address = env.HOST := by
      have hmem0 : ({h0 with roles := cleanupRoles h0.roles} : NodeInfo)
          ∈ g :: rest := hperm.mem_iff.mpr (List.mem_map_of_mem _ h0mem)
      rcases List.mem_cons.mp hmem0 with heq | hmem
      · refine ⟨{g with roles := g.roles ++ [Role.GATEWAY]}, List.mem_cons_self _ _, ?_⟩
        show g.address = env.HOST
        rw [← heq]
        exact h0addr
      · exact ⟨_, List.mem_cons_of_mem _ hmem, h0addr⟩
    cases hfi : ({g with roles := g.roles ++ [Role.GATEWAY]} :: rest).findIdx?
        (fun n => n.address = env.HOST) with
    | none =>
      exfalso
      obtain ⟨n, hn, hna⟩ := hhostmem
      have := List.findIdx?_eq_none_iff.mp hfi n hn
      simp [hna] at this
    | some i =>
      obtain ⟨hi, hpi⟩ := findIdx?_get hfi
      have haddr : (({g with roles := g.roles ++ [Role.GATEWAY]} :: rest).get ⟨i, hi⟩).address
          = env.HOST := by simpa using hpi
      refine ⟨listModify (fun n => {n with roles := n.roles ++ [Role.MESSAGE_BROKER]}) i
        ({g with roles := g.roles ++ [Role.GATEWAY]} :: rest), ?_, ?_, ?_, ?_, ?_, ?_, ?_, ?_⟩
      · unfold setRoles
        simp only [hms, hfi]
      · -- only the HOST entry can hold MESSAGE_BROKER
        intro n hn hmb
        rcases listModify_mem hn with hmem | ⟨hi', rfl⟩
        · rcases List.mem_cons.mp hmem with rfl | h'
          · rw [hg'roles] at hmb
            simp at hmb
          · rw [hrest n h'] at hmb
            simp at hmb
        · exact haddr
      · -- only a minimum-priority entry can hold GATEWAY
        have hminAll : ∀ m ∈ listModify (fun n => {n with roles := n.roles ++ [Role.MESSAGE_BROKER]})
            i ({g with roles := g.roles ++ [Role.GATEWAY]} :: rest), g.priority ≤ m.priority := by
          intro m hm
          rcases listModify_mem hm with hmem | ⟨hi', rfl⟩
          · rcases List.mem_cons.mp hmem with rfl | h'
            · exact Nat.le_refl _
            · exact hmin m h'
          · show g.priority ≤ (({g with roles := g.roles ++ [Role.GATEWAY]} :: rest).get
              ⟨i, hi'⟩).priority
            rcases List.mem_cons.mp (List.get_mem _ i hi') with heq | h'
            · rw [heq]
            · exact hmin _ h'
        intro n hn hgw m hm
        have hnp : n.priority = g.priority := by
          rcases listModify_mem hn with hmem | ⟨hi', rfl⟩
          · rcases List.mem_cons.mp hmem with rfl | h'
            · rfl
            · rw [hrest n h'] at hgw
              simp at hgw
          · show (({g with roles := g.roles ++ [Role.GATEWAY]} :: rest).get
                ⟨i, hi'⟩).priority = g.priority
            have hgwmem : Role.GATEWAY ∈ (({g with roles := g.roles ++ [Role.GATEWAY]}
                :: rest).get ⟨i, hi'⟩).roles := by
              rcases List.mem_append.mp hgw with h' | h'
              · exact h'
              · simp at h'
            rcases List.mem_cons.mp (List.get_mem _ i hi') with heq | h'
            · rw [heq]
            · rw [hrest _ h'] at hgwmem
              simp at hgwmem
        rw [hnp]
        exact hminAll m hm
      · -- exactly one MESSAGE_BROKER
        refine listModify_countP_one ?_ hi ?_
        · intro x _
          simp
        · intro n hn
          rcases List.mem_cons.mp hn with rfl | h'
          · rw [hg'roles]
            simp
          · rw [hrest n h']
            simp
      · -- exactly one GATEWAY
        rw [listModify_countP_of_preserve
          (fun n : NodeInfo => {n with roles := n.roles ++ [Role.MESSAGE_BROKER]})
          (fun n => decide (Role.GATEWAY ∈ n.roles)) (fun x => by simp)]
        rw [List.countP_cons]
        have hz : rest.countP (fun n => decide (Role.GATEWAY ∈ n.roles)) = 0 :=
          List.countP_eq_zero.mpr fun m hm => by rw [hrest m hm]; simp
        rw [hz]
        simp [hg'roles]
      · -- HOST receives MESSAGE_BROKER
        refine ⟨_, listModify_get_mem hi, haddr, by simp⟩
      · -- a minimum-priority entry receives GATEWAY
        have hgwmem : ({g with roles := g.roles ++ [Role.GATEWAY]} : NodeInfo)
            ∈ ({g with roles := g.roles ++ [Role.GATEWAY]} :: rest) := List.mem_cons_self _ _
        have hminAll : ∀ m ∈ listModify (fun n => {n with roles := n.roles ++ [Role.MESSAGE_BROKER]})
            i ({g with roles := g.roles ++ [Role.GATEWAY]} :: rest), g.priority ≤ m.priority := by
          intro m hm
          rcases listModify_mem hm with hmem | ⟨hi', rfl⟩
          · rcases List.mem_cons.mp hmem with rfl | h'
            · exact Nat.le_refl _
            · exact hmin m h'
          · show g.priority ≤ (({g with roles := g.roles ++ [Role.GATEWAY]} :: rest).get
              ⟨i, hi'⟩).priority
            rcases List.mem_cons.mp (List.get_mem _ i hi') with heq | h'
            · rw [heq]
            · exact hmin _ h'
        cases i with
        | zero =>
          refine ⟨{({g with roles := g.roles ++ [Role.GATEWAY]} : NodeInfo) with
            roles := ({g with roles := g.roles ++ [Role.GATEWAY]} : NodeInfo).roles
              ++ [Role.MESSAGE_BROKER]}, ?_, ?_, ?_⟩
          · simp [listModify]
          · rw [hg'roles]
            simp
          · intro m hm
            exact hminAll m hm
        | succ j =>
          refine ⟨{g with roles := g.roles ++ [Role.GATEWAY]}, ?_, ?_, ?_⟩
          · simp [listModify]
          · rw [hg'roles]
            simp
          · intro m hm
            exact hminAll m hm
      · -- addresses and priorities are preserved up to permutation
        rw [listModify_map_of_preserve
          (fun n : NodeInfo => {n with roles := n.roles ++ [Role.MESSAGE_BROKER]})
          (fun n => (n.address, n.priority)) (fun x => rfl)]
        have hws : (({g with roles := g.roles ++ [Role.GATEWAY]} :: rest).map
            fun n => (n.address, n.priority)) = ((g :: rest).map fun n => (n.address, n.priority)) :=
          rfl
        rw [hws, ← hprmap]
        exact hperm.map _


/-- C1 (amended): when the node builds its role vector on becoming leader
(`#setRoles`) from a nodes list containing the local node in which every
entry carries at most one role, the step succeeds, at most one entry of the
resulting list holds MESSAGE_BROKER, at most one holds GATEWAY, and every
member other than the local node and the minimum-priority gateway holds
neither.  (The restriction to at-most-one-role entries is forced: the
truthiness bug in the role cleanup keeps a GATEWAY or MESSAGE_BROKER that
shares an entry with another role — see the counterexample.) -/
theorem C1_setRoles_role_uniqueness (env : Env) (st : DState)
    (hhost : ∃ n ∈ st.nodes, n.address = env.HOST)
    (hclean : ∀ n ∈ st.nodes, n.roles.length ≤ 1) :
    ∃ ns outs, setRoles env st = .ok ({st with nodes := ns}, outs) ∧
      ns.countP (fun n => decide (Role.MESSAGE_BROKER ∈ n.roles)) ≤ 1 ∧
      ns.countP (fun n => decide (Role.GATEWAY ∈ n.roles)) ≤ 1 ∧
      (∀ n ∈ ns, Role.MESSAGE_BROKER ∈ n.roles → n.address = env.HOST) ∧
      (∀ n ∈ ns, Role.GATEWAY ∈ n.roles → ∀ m ∈ ns, n.priority ≤ m.priority) := by
  obtain ⟨ns, heq, hmb, hgw, hc1, hc2, _⟩ := setRoles_clean env st hhost hclean
  exact ⟨ns, _, heq, by omega, by omega, hmb, hgw⟩

/-- Witness for C1: the single-node state at startup. -/
theorem C1_setRoles_role_uniqueness_witness :
    (∃ n ∈ (initState (Env.mk "10.0.0.1" "255.255.255.0")).nodes,
      n.address = (Env.mk "10.0.0.1" "255.255.255.0").HOST)
    ∧ (∀ n ∈ (initState (Env.mk "10.0.0.1" "255.255.255.0")).nodes, n.roles.length ≤ 1)
    ∧ (∃ ns outs, setRoles (Env.mk "10.0.0.1" "255.255.255.0")
        (initState (Env.mk "10.0.0.1" "255.255.255.0"))
          = .ok ({initState (Env.mk "10.0.0.1" "255.255.255.0") with nodes := ns}, outs) ∧
      ns.countP (fun n => decide (Role.MESSAGE_BROKER ∈ n.roles)) ≤ 1 ∧
      ns.countP (fun n => decide (Role.GATEWAY ∈ n.roles)) ≤ 1 ∧
      (∀ n ∈ ns, Role.MESSAGE_BROKER ∈ n.roles
        → n.address = (Env.mk "10.0.0.1" "255.255.255.0").HOST) ∧
      (∀ n ∈ ns, Role.GATEWAY ∈ n.roles → ∀ m ∈ ns, n.priority ≤ m.priority)) :=
  ⟨by decide, by decide,
    C1_setRoles_role_uniqueness _ _ (by decide) (by decide)⟩

/-- The environment of the C1/C2 counterexamples: the local node
`10.0.0.1/24` has priority 1. -/
def envCex : Env := ⟨"10.0.0.1", "255.255.255.0"⟩

/-- Prior state for the C1 counterexample: the peer entry holds GATEWAY at
position 0 of its roles array (and MESSAGE_BROKER after it). -/
def stCexGw : DState :=
  {initState envCex with nodes :=
    [⟨"10.0.0.1", 1, []⟩, ⟨"10.0.0.2", 2, [Role.GATEWAY, Role.MESSAGE_BROKER]⟩]}

/-- Prior state for the C2 counterexample: the peer entry holds
MESSAGE_BROKER at position 0 of its roles array (and GATEWAY after it). -/
def stCexMb : DState :=
  {initState envCex with nodes :=
    [⟨"10.0.0.1", 1, []⟩, ⟨"10.0.0.2", 2, [Role.MESSAGE_BROKER, Role.GATEWAY]⟩]}

theorem mergeSort_pair_sorted {a b : NodeInfo} (hab : a.priority ≤ b.priority) :
    List.mergeSort [a, b] (fun x y => decide (x.priority ≤ y.priority)) = [a, b] :=
  List.mergeSort_of_sorted
    (List.Pairwise.cons
      (fun m hm => by
        rw [List.mem_singleton] at hm
        subst hm
        simpa using hab)
      (List.Pairwise.cons (fun m hm => by cases hm) List.Pairwise.nil))

/-- C1 counterexample: starting from `stCexGw` — where the peer's prior
GATEWAY sits at position 0 of its roles array — `#setRoles` leaves that
GATEWAY in place, so the resulting nodes list holds GATEWAY twice. -/
theorem C1_counterexample :
    setRoles envCex stCexGw = .ok
      ({stCexGw with
          nodes := [⟨"10.0.0.1", 1, [Role.GATEWAY, Role.MESSAGE_BROKER]⟩,
                    ⟨"10.0.0.2", 2, [Role.GATEWAY]⟩]},
        [Output.rolesEvent
          [⟨"10.0.0.1", 1, [Role.GATEWAY, Role.MESSAGE_BROKER]⟩,
           ⟨"10.0.0.2", 2, [Role.GATEWAY]⟩] "#setRoles"])
    ∧ ([⟨"10.0.0.1", 1, [Role.GATEWAY, Role.MESSAGE_BROKER]⟩,
        ⟨"10.0.0.2", 2, [Role.GATEWAY]⟩] : List NodeInfo).countP
          (fun n => decide (Role.GATEWAY ∈ n.roles)) = 2 := by
  constructor
  · have hcl : stCexGw.nodes.map (fun n => {n with roles := cleanupRoles n.roles})
        = [⟨"10.0.0.1", 1, []⟩, ⟨"10.0.0.2", 2, [Role.GATEWAY]⟩] := by decide
    simp only [setRoles]
    rw [hcl, mergeSort_pair_sorted (by decide)]
    decide
  · decide

/-- C2 counterexample: starting from `stCexMb`, the peer's prior
MESSAGE_BROKER survives the cleanup, so the COORDINATOR payload lists a
MESSAGE_BROKER entry other than the sender — the payload does not list
exactly the announced assignments. -/
theorem C2_counterexample :
    sendCoordinator envCex stCexMb = .ok
      ({stCexMb with
          nodes := [⟨"10.0.0.1", 1, [Role.GATEWAY, Role.MESSAGE_BROKER]⟩,
                    ⟨"10.0.0.2", 2, [Role.MESSAGE_BROKER]⟩],
          coordinatorInterval := ["10.0.0.2"]},
        [Output.rolesEvent
          [⟨"10.0.0.1", 1, [Role.GATEWAY, Role.MESSAGE_BROKER]⟩,
           ⟨"10.0.0.2", 2, [Role.MESSAGE_BROKER]⟩] "#setRoles",
         Output.send "10.0.0.2" (WireMsg.coordinator
          [⟨"10.0.0.1", [Role.GATEWAY, Role.MESSAGE_BROKER]⟩,
           ⟨"10.0.0.2", [Role.MESSAGE_BROKER]⟩])])
    ∧ (⟨"10.0.0.2", [Role.MESSAGE_BROKER]⟩ : MessageNodeInfo)
        ∈ [(⟨"10.0.0.1", [Role.GATEWAY, Role.MESSAGE_BROKER]⟩ : MessageNodeInfo),
           ⟨"10.0.0.2", [Role.MESSAGE_BROKER]⟩]
    ∧ "10.0.0.2" ≠ envCex.HOST := by
  refine ⟨?_, by decide, by decide⟩
  have hcl : stCexMb.nodes.map (fun n => {n with roles := cleanupRoles n.roles})
      = [⟨"10.0.0.1", 1, []⟩, ⟨"10.0.0.2", 2, [Role.MESSAGE_BROKER]⟩] := by decide
  simp only [sendCoordinator, setRoles]
  rw [hcl, mergeSort_pair_sorted (by decide)]
  decide

/-- C2 (amended): on the leader path from a state whose entries each carry
at most one role and whose nodes list contains the local node,
`#sendCoordinator` succeeds; in the stored nodes list the local node's entry
is the only one holding MESSAGE_BROKER and a minimum-priority entry is the
only one holding GATEWAY; the serialized payload carries exactly these
assignments, and a COORDINATOR send with that payload is issued to every
member other than the local node. -/
theorem C2_sendCoordinator_leader_assignment (env : Env) (st : DState)
    (hhost : ∃ n ∈ st.nodes, n.address = env.HOST)
    (hclean : ∀ n ∈ st.nodes, n.roles.length ≤ 1) :
    ∃ st' outs, sendCoordinator env st = .ok (st', outs) ∧
      (∃ n ∈ st'.nodes, n.address = env.HOST ∧ Role.MESSAGE_BROKER ∈ n.roles) ∧
      (∀ p ∈ toMsgList st'.nodes, Role.MESSAGE_BROKER ∈ p.roles → p.address = env.HOST) ∧
      (∃ n ∈ st'.nodes, Role.GATEWAY ∈ n.roles ∧ ∀ m ∈ st'.nodes, n.priority ≤ m.priority) ∧
      (∀ n ∈ st'.nodes, Role.GATEWAY ∈ n.roles → ∀ m ∈ st'.nodes, n.priority ≤ m.priority) ∧
      (∀ n ∈ st'.nodes, n.address ≠ env.HOST →
        Output.send n.address (WireMsg.coordinator (toMsgList st'.nodes)) ∈ outs) ∧
      (toMsgList st'.nodes).countP (fun p => decide (Role.MESSAGE_BROKER ∈ p.roles)) = 1 ∧
      (toMsgList st'.nodes).countP (fun p => decide (Role.GATEWAY ∈ p.roles)) = 1 := by
  obtain ⟨ns, heq, hmb, hgw, hc1, hc2, hexmb, hexgw, _⟩ := setRoles_clean env st hhost hclean
  have hsc : sendCoordinator env st = .ok
      ({{st with nodes := ns} with
          coordinatorInterval := ((ns.filter fun n => n.address ≠ env.HOST).map (·.address)).foldl
            (fun r k => addKey k r) st.coordinatorInterval},
        [Output.rolesEvent ns "#setRoles"]
          ++ ((ns.filter fun n => n.address ≠ env.HOST).map (·.address)).map
            fun a => Output.send a (WireMsg.coordinator (toMsgList ns))) := by
    unfold sendCoordinator
    rw [heq]
  refine ⟨_, _, hsc, ?_, ?_, ?_, ?_, ?_, ?_, ?_⟩
  · exact hexmb
  · intro p hp hpmb
    obtain ⟨n, hn, rfl⟩ := List.mem_map.mp hp
    exact hmb n hn hpmb
  · exact hexgw
  · exact hgw
  · intro n hn hne
    refine List.mem_append.mpr (Or.inr ?_)
    refine List.mem_map.mpr ⟨n.address, ?_, rfl⟩
    refine List.mem_map.mpr ⟨n, ?_, rfl⟩
    exact List.mem_filter.mpr ⟨hn, by simpa using hne⟩
  · rw [toMsgList, List.countP_map]
    exact hc1
  · rw [toMsgList, List.countP_map]
    exact hc2

/-- Witness for C2: the single-node state at startup. -/
theorem C2_sendCoordinator_leader_assignment_witness :
    (∃ n ∈ (initState (Env.mk "10.0.0.1" "255.255.255.0")).nodes,
      n.address = (Env.mk "10.0.0.1" "255.255.255.0").HOST)
    ∧ (∀ n ∈ (initState (Env.mk "10.0.0.1" "255.255.255.0")).nodes, n.roles.length ≤ 1)
    ∧ (∃ st' outs, sendCoordinator (Env.mk "10.0.0.1" "255.255.255.0")
        (initState (Env.mk "10.0.0.1" "255.255.255.0")) = .ok (st', outs) ∧
      (∃ n ∈ st'.nodes, n.address = (Env.mk "10.0.0.1" "255.255.255.0").HOST
        ∧ Role.MESSAGE_BROKER ∈ n.roles) ∧
      (∀ p ∈ toMsgList st'.nodes, Role.MESSAGE_BROKER ∈ p.roles
        → p.address = (Env.mk "10.0.0.1" "255.255.255.0").HOST) ∧
      (∃ n ∈ st'.nodes, Role.GATEWAY ∈ n.roles ∧ ∀ m ∈ st'.nodes, n.priority ≤ m.priority) ∧
      (∀ n ∈ st'.nodes, Role.GATEWAY ∈ n.roles → ∀ m ∈ st'.nodes, n.priority ≤ m.priority) ∧
      (∀ n ∈ st'.nodes, n.address ≠ (Env.mk "10.0.0.1" "255.255.255.0").HOST →
        Output.send n.address (WireMsg.coordinator (toMsgList st'.nodes)) ∈ outs) ∧
      (toMsgList st'.nodes).countP (fun p => decide (Role.MESSAGE_BROKER ∈ p.roles)) = 1 ∧
      (toMsgList st'.nodes).countP (fun p => decide (Role.GATEWAY ∈ p.roles)) = 1) :=
  ⟨by decide, by decide,
    C2_sendCoordinator_leader_assignment _ _ (by decide) (by decide)⟩


/-! ## C3: the election-timeout step -/

/-- The eviction splice never removes entries other than the target: under
address uniqueness, no entry of the result carries the fired address. -/
theorem spliceRemove_no_target {nodes : List NodeInfo} {h : String}
    (hnodup : (nodes.map (fun n => n.address)).Nodup) :
    ∀ n ∈ spliceRemove nodes h, n.address ≠ h := by
  cases hidx : nodes.findIdx? (fun n => n.address = h) with
  | none =>
    have hall := List.findIdx?_eq_none_iff.mp hidx
    have hsub : spliceRemove nodes h = nodes.dropLast := by
      unfold spliceRemove
      rw [hidx]
    rw [hsub]
    intro n hn
    have hmem : n ∈ nodes := (List.dropLast_sublist nodes).subset hn
    simpa using hall n hmem
  | some i =>
    obtain ⟨l₁, x, l₂, hl, hlen, hx, hallx⟩ := findIdx?_decomp hidx
    have hx' : x.address = h := by simpa using hx
    have hsub : spliceRemove nodes h = l₁ ++ l₂ := by
      unfold spliceRemove
      rw [hidx, hl, ← hlen]
      exact eraseIdx_append_length
    rw [hsub]
    intro n hn
    rcases List.mem_append.mp hn with h1 | h2
    · simpa using hallx n h1
    · intro hc
      rw [hl] at hnodup
      simp only [List.map_append, List.map_cons] at hnodup
      have hnd2 : (x.address :: l₂.map (fun n => n.address)).Nodup :=
        (List.nodup_append.mp hnodup).2.1
      have hnotin : x.address ∉ l₂.map (fun n => n.address) := (List.nodup_cons.mp hnd2).1
      exact hnotin (by rw [hx', ← hc]; exact List.mem_map_of_mem _ h2)

/-- Entries with a different address survive the eviction splice when the
target address is present. -/
theorem spliceRemove_mem_of_ne {nodes : List NodeInfo} {h : String} {n : NodeInfo}
    (hn : n ∈ nodes) (hne : n.address ≠ h) (hpresent : ∃ m ∈ nodes, m.address = h) :
    n ∈ spliceRemove nodes h := by
  cases hidx : nodes.findIdx? (fun n => n.address = h) with
  | none =>
    exfalso
    obtain ⟨m, hm, hma⟩ := hpresent
    have := List.findIdx?_eq_none_iff.mp hidx m hm
    simp [hma] at this
  | some i =>
    obtain ⟨l₁, x, l₂, hl, hlen, hx, _⟩ := findIdx?_decomp hidx
    have hx' : x.address = h := by simpa using hx
    have hsub : spliceRemove nodes h = l₁ ++ l₂ := by
      unfold spliceRemove
      rw [hidx, hl, ← hlen]
      exact eraseIdx_append_length
    rw [hsub]
    rw [hl] at hn
    rcases List.mem_append.mp hn with h1 | h2
    · exact List.mem_append.mpr (Or.inl h1)
    · rcases List.mem_cons.mp h2 with rfl | h3
      · exact absurd hx' hne
      · exact List.mem_append.mpr (Or.inr h3)

/-- The eviction splice only keeps entries of the original list. -/
theorem spliceRemove_subset {nodes : List NodeInfo} {h : String} :
    spliceRemove nodes h ⊆ nodes := by
  unfold spliceRemove
  cases hidx : nodes.findIdx? (fun n => n.address = h) with
  | none => exact (List.dropLast_sublist nodes).subset
  | some i => exact (List.eraseIdx_sublist nodes i).subset

/-- C3 (amended): when the election timeout for a peer address `h` fires —
with `h` and the local node both in the (address-unique, clean-roled) nodes
list and `h` not the local address — the ELECTION interval for `h` is
cancelled, every surviving entry has an address other than `h`, and the node
transitions to LEADER (emits the roles event of `#setRoles` on the way to
COORDINATOR) if and only if `receivedOK` is still false.  The source does not
additionally require that no other election intervals remain pending. -/
theorem C3_electionTimeout_step (env : Env) (st : DState) (h : String)
    (hkey : h ∈ st.electionTimeout)
    (hmem : ∃ n ∈ st.nodes, n.address = h)
    (hhost : ∃ n ∈ st.nodes, n.address = env.HOST)
    (hne : h ≠ env.HOST)
    (hnodup : (st.nodes.map (fun n => n.address)).Nodup)
    (hclean : ∀ n ∈ st.nodes, n.roles.length ≤ 1) :
    (applyEvent env st (Event.electionTimeout h)).1.electionInterval
        = removeKey h st.electionInterval
    ∧ (∀ n ∈ (applyEvent env st (Event.electionTimeout h)).1.nodes, n.address ≠ h)
    ∧ ((∃ snap src, Output.rolesEvent snap src ∈ (applyEvent env st (Event.electionTimeout h)).2)
        ↔ st.receivedOK = false) := by
  have happ : applyEvent env st (Event.electionTimeout h) = electionTimeoutFire env st h := by
    simp [applyEvent, hkey]
  rw [happ]
  have hsplice : ∀ n ∈ spliceRemove st.nodes h, n.address ≠ h := spliceRemove_no_target hnodup
  cases hrok : st.receivedOK with
  | true =>
    have hfire : electionTimeoutFire env st h
        = ({st with
              electionInterval := removeKey h st.electionInterval
              nodes := spliceRemove st.nodes h}, []) := by
      unfold electionTimeoutFire
      simp [hrok]
    rw [hfire]
    refine ⟨rfl, hsplice, ?_⟩
    simp [hrok]
  | false =>
    obtain ⟨h0, h0mem, h0addr⟩ := hhost
    have hhost2 : ∃ n ∈ spliceRemove st.nodes h, n.address = env.HOST :=
      ⟨h0, spliceRemove_mem_of_ne h0mem (by rw [h0addr]; exact fun hc => hne hc.symm) hmem,
        h0addr⟩
    have hclean2 : ∀ n ∈ spliceRemove st.nodes h, n.roles.length ≤ 1 :=
      fun n hn => hclean n (spliceRemove_subset hn)
    obtain ⟨ns, heq, _, _, _, _, _, _, hpr⟩ := setRoles_clean env
      {st with
        electionInterval := removeKey h st.electionInterval
        nodes := spliceRemove st.nodes h} hhost2 hclean2
    have hfire : electionTimeoutFire env st h
        = ({{{st with
                electionInterval := removeKey h st.electionInterval
                nodes := spliceRemove st.nodes h} with nodes := ns} with
              coordinatorInterval := ((ns.filter fun n => n.address ≠ env.HOST).map
                (fun n => n.address)).foldl (fun r k => addKey k r) st.coordinatorInterval},
            [Output.rolesEvent ns "#setRoles"]
              ++ ((ns.filter fun n => n.address ≠ env.HOST).map (fun n => n.address)).map
                fun a => Output.send a (WireMsg.coordinator (toMsgList ns))) := by
      simp only [electionTimeoutFire, sendCoordinator]
      rw [heq]
      simp [hrok]
    rw [hfire]
    refine ⟨rfl, ?_, ?_⟩
    · intro n hn hc
      have hmm : (n.address, n.priority) ∈ ns.map fun n => (n.address, n.priority) :=
        List.mem_map_of_mem _ hn
      have := hpr.mem_iff.mp hmm
      obtain ⟨m, hm, hme⟩ := List.mem_map.mp this
      have heqaddr : m.address = n.address := congrArg Prod.fst hme
      exact hsplice m hm (by rw [heqaddr, hc])
    · constructor
      · intro _
        rfl
      · intro _
        exact ⟨ns, "#setRoles", by simp⟩


/-- Environment for the C3 scenario: local node `10.0.0.3/24`, priority 3. -/
def envC3 : Env := ⟨"10.0.0.3", "255.255.255.0"⟩

/-- C3 scenario state: ELECTION transactions pending toward two
higher-priority peers, no OK received yet. -/
def stC3 : DState := {initState envC3 with
  nodes := [⟨"10.0.0.3", 3, []⟩, ⟨"10.0.0.5", 5, []⟩, ⟨"10.0.0.6", 6, []⟩]
  electionInterval := ["10.0.0.5", "10.0.0.6"]
  electionTimeout := ["10.0.0.5", "10.0.0.6"]}

/-- Witness for C3 at the scenario state. -/
theorem C3_electionTimeout_step_witness :
    ("10.0.0.5" ∈ stC3.electionTimeout)
    ∧ (∃ n ∈ stC3.nodes, n.address = "10.0.0.5")
    ∧ (∃ n ∈ stC3.nodes, n.address = envC3.HOST)
    ∧ ("10.0.0.5" ≠ envC3.HOST)
    ∧ (stC3.nodes.map (fun n => n.address)).Nodup
    ∧ (∀ n ∈ stC3.nodes, n.roles.length ≤ 1)
    ∧ ((applyEvent envC3 stC3 (Event.electionTimeout "10.0.0.5")).1.electionInterval
          = removeKey "10.0.0.5" stC3.electionInterval
      ∧ (∀ n ∈ (applyEvent envC3 stC3 (Event.electionTimeout "10.0.0.5")).1.nodes,
          n.address ≠ "10.0.0.5")
      ∧ ((∃ snap src, Output.rolesEvent snap src
            ∈ (applyEvent envC3 stC3 (Event.electionTimeout "10.0.0.5")).2)
          ↔ stC3.receivedOK = false)) :=
  ⟨by decide, by decide, by decide, by decide, by decide, by decide,
    C3_electionTimeout_step _ _ _ (by decide) (by decide) (by decide) (by decide)
      (by decide) (by decide)⟩

/-- C3 counterexample: firing the election timeout for `10.0.0.5` at `stC3`
transitions to LEADER (the `#setRoles` roles event is emitted and COORDINATOR
is sent) even though the election interval for `10.0.0.6` is still pending —
the claim's "and no other election intervals remain pending" condition is not
checked by the code. -/
theorem C3_counterexample :
    stC3.receivedOK = false
    ∧ "10.0.0.6" ∈ (applyEvent envC3 stC3 (Event.electionTimeout "10.0.0.5")).1.electionInterval
    ∧ Output.rolesEvent
        [⟨"10.0.0.3", 3, [Role.GATEWAY, Role.MESSAGE_BROKER]⟩, ⟨"10.0.0.6", 6, []⟩]
        "#setRoles" ∈ (applyEvent envC3 stC3 (Event.electionTimeout "10.0.0.5")).2 := by
  have happ : applyEvent envC3 stC3 (Event.electionTimeout "10.0.0.5")
      = electionTimeoutFire envC3 stC3 "10.0.0.5" := by
    simp [applyEvent, stC3]
  have hcl : (spliceRemove stC3.nodes "10.0.0.5").map
      (fun n => {n with roles := cleanupRoles n.roles})
        = [⟨"10.0.0.3", 3, []⟩, ⟨"10.0.0.6", 6, []⟩] := by decide
  refine ⟨by decide, ?_, ?_⟩ <;>
    (rw [happ]
     simp only [electionTimeoutFire, sendCoordinator, setRoles]
     rw [hcl, mergeSort_pair_sorted (by decide)]
     decide)


/-! ## C4: the pre-election debounce trigger -/

/-- Environment for the C4 counterexample: local node `10.0.0.2/24`. -/
def envC4 : Env := ⟨"10.0.0.2", "255.255.255.0"⟩

/-- C4 counterexample state: broker (priority 10) and gateway (priority 1)
are known, no pre-election timeout pending. -/
def stC4 : DState := {initState envC4 with
  nodes := [⟨"10.0.0.2", 2, []⟩, ⟨"10.0.0.10", 10, [Role.MESSAGE_BROKER]⟩,
            ⟨"10.0.0.1", 1, [Role.GATEWAY]⟩]
  messageBroker := some ⟨"10.0.0.10", 10⟩
  gateway := some ⟨"10.0.0.1", 1⟩}

/-- C4 counterexample: merging `10.0.0.5` (priority 5, between the known
gateway's 1 and the known broker's 10) adds a new peer entry, yet the
pre-election timeout is NOT armed — `#addNodes` additionally requires
`#isHighestOrLowestPriority`, contradicting the claim's "regardless of the
new peer's priority". -/
theorem C4_counterexample :
    (addNodes envC4 stC4 [⟨"10.0.0.5", []⟩]).2.2 = false
    ∧ (mergeNodes envC4 stC4.nodes [⟨"10.0.0.5", []⟩]).2 = true
    ∧ stC4.preElectionTimeout = false
    ∧ (addNodes envC4 stC4 [⟨"10.0.0.5", []⟩]).1.preElectionTimeout = false := by decide

/-- C4 (amended): starting from a state with no pre-election timeout
pending, when `#findRoles` does not throw, the pre-election timeout is armed
by `#addNodes` if and only if the merge added at least one new peer entry,
the received list did not change the local node's own role, and
`#isHighestOrLowestPriority` holds of the received list against the updated
broker/gateway knowledge; when `#findRoles` throws, the timeout is not
armed. -/
theorem C4_addNodes_preelection (env : Env) (st : DState) (nodeList : List MessageNodeInfo)
    (hpe : st.preElectionTimeout = false) :
    (∀ mb' gw' own, findRoles env st.messageBroker st.gateway nodeList = .ok (mb', gw', own) →
      ((addNodes env st nodeList).1.preElectionTimeout = true
        ↔ own = false ∧ (mergeNodes env st.nodes nodeList).2 = true
          ∧ isHighestOrLowestPriority env mb' gw' nodeList = true))
    ∧ (∀ e, findRoles env st.messageBroker st.gateway nodeList = .error e →
        (addNodes env st nodeList).1.preElectionTimeout = false) := by
  constructor
  · intro mb' gw' own hfr
    simp only [addNodes]
    rw [hfr]
    cases own with
    | true => simp [hpe]
    | false =>
      cases hnew : (mergeNodes env st.nodes nodeList).2 with
      | true =>
        cases hhl : isHighestOrLowestPriority env mb' gw' nodeList with
        | true =>
          simp [hnew, hhl, hpe]
          split <;> rfl
        | false =>
          simp [hnew, hhl, hpe]
          split <;> rfl
      | false =>
        simp [hnew, hpe]
        split <;> rfl
  · intro e hfr
    simp only [addNodes]
    rw [hfr]
    exact hpe

/-- Witness for C4: the startup state merging one unknown peer. -/
theorem C4_addNodes_preelection_witness :
    (initState envC4).preElectionTimeout = false
    ∧ ((∀ mb' gw' own, findRoles envC4 (initState envC4).messageBroker
          (initState envC4).gateway [⟨"10.0.0.9", []⟩] = .ok (mb', gw', own) →
        ((addNodes envC4 (initState envC4) [⟨"10.0.0.9", []⟩]).1.preElectionTimeout = true
          ↔ own = false
            ∧ (mergeNodes envC4 (initState envC4).nodes [⟨"10.0.0.9", []⟩]).2 = true
            ∧ isHighestOrLowestPriority envC4 mb' gw' [⟨"10.0.0.9", []⟩] = true))
      ∧ (∀ e, findRoles envC4 (initState envC4).messageBroker
            (initState envC4).gateway [⟨"10.0.0.9", []⟩] = .error e →
          (addNodes envC4 (initState envC4) [⟨"10.0.0.9", []⟩]).1.preElectionTimeout = false)) :=
  ⟨by decide, C4_addNodes_preelection _ _ _ (by decide)⟩


/-! ## C7: the priority-identity invariant -/

/-- The C7 invariant on a nodes list: every entry's priority is the one
locally computed from its address and the netmask, and no two entries share
an address. -/
def NodesInv (env : Env) (l : List NodeInfo) : Prop :=
  (∀ n ∈ l, n.priority = getPriorityNumber n.address env.netmask)
  ∧ (l.map (fun n => n.address)).Nodup

/-- The node-list snapshots carried by the events of an output list. -/
def eventSnapshots (outs : List Output) : List (List NodeInfo) :=
  outs.filterMap fun o =>
    match o with
    | .nodesEvent snap => some snap
    | .rolesEvent snap _ => some snap
    | .send _ _ => none

theorem mem_set_cases {α : Type _} :
    ∀ {l : List α} {i : Nat} {a x : α}, x ∈ l.set i a → x ∈ l ∨ x = a := by
  intro l
  induction l with
  | nil => intro i a x h; simp at h
  | cons b bs ih =>
    intro i a x h
    cases i with
    | zero =>
      rcases List.mem_cons.mp h with rfl | h'
      · exact Or.inr rfl
      · exact Or.inl (List.mem_cons_of_mem _ h')
    | succ j =>
      rcases List.mem_cons.mp h with rfl | h'
      · exact Or.inl (List.mem_cons_self _ _)
      · rcases ih h' with h'' | rfl
        · exact Or.inl (List.mem_cons_of_mem _ h'')
        · exact Or.inr rfl

theorem map_address_set_self :
    ∀ {l : List NodeInfo} {i : Nat} {a : NodeInfo} (hi : i < l.length),
      (l.get ⟨i, hi⟩).address = a.address →
      (l.set i a).map (fun n => n.address) = l.map (fun n => n.address) := by
  intro l
  induction l with
  | nil => intro i a hi; simp at hi
  | cons b bs ih =>
    intro i a hi ha
    cases i with
    | zero => simpa using ha.symm
    | succ j =>
      simp only [List.set_cons_succ, List.map_cons, List.cons.injEq, true_and]
      exact ih (Nat.lt_of_succ_lt_succ hi) ha

theorem spliceRemove_sublist {nodes : List NodeInfo} {h : String} :
    List.Sublist (spliceRemove nodes h) nodes := by
  unfold spliceRemove
  cases nodes.findIdx? (fun n => n.address = h) with
  | none => exact List.dropLast_sublist nodes
  | some i => exact List.eraseIdx_sublist nodes i

/-- Transfer of the invariant across a permutation of the
`(address, priority)` projections. -/
theorem NodesInv_of_pr_perm {env : Env} {l₁ l₂ : List NodeInfo}
    (hp : List.Perm (l₁.map fun n => (n.address, n.priority))
      (l₂.map fun n => (n.address, n.priority)))
    (h : NodesInv env l₂) : NodesInv env l₁ := by
  obtain ⟨hpt, hnd⟩ := h
  constructor
  · intro n hn
    have hmm : (n.address, n.priority) ∈ l₂.map fun n => (n.address, n.priority) :=
      hp.mem_iff.mp (List.mem_map_of_mem _ hn)
    obtain ⟨m, hm, hme⟩ := List.mem_map.mp hmm
    have ha : m.address = n.address := congrArg Prod.fst hme
    have hpe : m.priority = n.priority := congrArg Prod.snd hme
    rw [← hpe, ← ha]
    exact hpt m hm
  · have h1 : l₁.map (fun n => n.address)
        = (l₁.map fun n => (n.address, n.priority)).map Prod.fst := by
      rw [List.map_map]
      rfl
    have h2 : l₂.map (fun n => n.address)
        = (l₂.map fun n => (n.address, n.priority)).map Prod.fst := by
      rw [List.map_map]
      rfl
    rw [h1]
    exact ((hp.map Prod.fst).nodup_iff).mpr (h2 ▸ hnd)

/-- The invariant is preserved when passing to a sublist. -/
theorem NodesInv_sublist {env : Env} {l₁ l₂ : List NodeInfo}
    (hs : List.Sublist l₁ l₂) (h : NodesInv env l₂) : NodesInv env l₁ :=
  ⟨fun n hn => h.1 n (hs.subset hn), (hs.map _).nodup h.2⟩


theorem mergeNode_inv {env : Env} {nodes : List NodeInfo} {node : MessageNodeInfo}
    (h : NodesInv env nodes) : NodesInv env (mergeNode env nodes node).1 := by
  unfold mergeNode
  by_cases h1 : node.address = env.HOST
  · rw [if_pos h1]
    cases hfi : nodes.findIdx? (fun n => n.address = env.HOST) with
    | none => exact h
    | some i =>
      obtain ⟨hi, hpi⟩ := findIdx?_get hfi
      have hgaddr : (nodes.get ⟨i, hi⟩).address = env.HOST := by simpa using hpi
      constructor
      · intro n hn
        rcases mem_set_cases hn with hmem | rfl
        · exact h.1 n hmem
        · show env.PRIORITY = getPriorityNumber node.address env.netmask
          rw [h1]
          rfl
      · rw [map_address_set_self hi (by rw [hgaddr, h1])]
        exact h.2
  · rw [if_neg h1]
    by_cases h2 : (nodes.find? (fun n => n.address = node.address)).isSome = true
    · rw [if_pos h2]
      exact h
    · rw [if_neg h2]
      constructor
      · intro n hn
        rcases List.mem_append.mp hn with hmem | hmem
        · exact h.1 n hmem
        · rw [List.mem_singleton] at hmem
          subst hmem
          rfl
      · rw [List.map_append]
        refine List.nodup_append.mpr ⟨h.2, by simp, ?_⟩
        intro a ha hb
        simp only [List.map_cons, List.map_nil, List.mem_singleton] at hb
        subst hb
        obtain ⟨m, hm, hma⟩ := List.mem_map.mp ha
        exact h2 (List.find?_isSome.mpr ⟨m, hm, by simp [hma]⟩)

theorem mergeNodes_foldl_inv {env : Env} :
    ∀ (nodeList : List MessageNodeInfo) (acc : List NodeInfo × Bool),
      NodesInv env acc.1 →
      NodesInv env ((nodeList.foldl (fun acc node =>
        let r := mergeNode env acc.1 node
        (r.1, acc.2 || r.2)) acc).1) := by
  intro nodeList
  induction nodeList with
  | nil => intro acc h; exact h
  | cons a as ih =>
    intro acc h
    simp only [List.foldl_cons]
    exact ih _ (mergeNode_inv h)

theorem mergeNodes_inv {env : Env} {nodes : List NodeInfo} {nodeList : List MessageNodeInfo}
    (h : NodesInv env nodes) : NodesInv env (mergeNodes env nodes nodeList).1 := by
  unfold mergeNodes
  exact mergeNodes_foldl_inv nodeList (nodes, false) h

theorem updateRoles_step_inv {env : Env} {ns : List NodeInfo} {node : MessageNodeInfo}
    (h : NodesInv env ns) :
    NodesInv env (match ns.findIdx? (fun n => n.address = node.address) with
      | some i => listModify (fun n => {n with roles := node.roles}) i ns
      | none => ns ++ [⟨node.address, getPriorityNumber node.address env.netmask, node.roles⟩]) := by
  cases hfi : ns.findIdx? (fun n => n.address = node.address) with
  | some i =>
    constructor
    · intro n hn
      rcases listModify_mem hn with hmem | ⟨hi, rfl⟩
      · exact h.1 n hmem
      · show (ns.get ⟨i, hi⟩).priority = getPriorityNumber (ns.get ⟨i, hi⟩).address env.netmask
        exact h.1 _ (List.get_mem ns i hi)
    · rw [listModify_map_of_preserve (fun n : NodeInfo => {n with roles := node.roles})
        (fun n => n.address) (fun x => rfl)]
      exact h.2
  | none =>
    constructor
    · intro n hn
      rcases List.mem_append.mp hn with hmem | hmem
      · exact h.1 n hmem
      · rw [List.mem_singleton] at hmem
        subst hmem
        rfl
    · rw [List.map_append]
      refine List.nodup_append.mpr ⟨h.2, by simp, ?_⟩
      intro a ha hb
      simp only [List.map_cons, List.map_nil, List.mem_singleton] at hb
      subst hb
      obtain ⟨m, hm, hma⟩ := List.mem_map.mp ha
      have := List.findIdx?_eq_none_iff.mp hfi m hm
      simp [hma] at this

theorem updateRoles_inv {env : Env} :
    ∀ (nodeData : List MessageNodeInfo) {nodes : List NodeInfo}, NodesInv env nodes →
      NodesInv env (updateRoles env nodes nodeData) := by
  intro nodeData
  induction nodeData with
  | nil => intro nodes h; exact h
  | cons a as ih =>
    intro nodes h
    unfold updateRoles
    simp only [List.foldl_cons]
    have hstep := @updateRoles_step_inv env nodes a h
    exact ih hstep


theorem eventSnapshots_append (o1 o2 : List Output) :
    eventSnapshots (o1 ++ o2) = eventSnapshots o1 ++ eventSnapshots o2 := by
  unfold eventSnapshots
  exact List.filterMap_append _ _ _

theorem eventSnapshots_sends (dests : List String) (msg : WireMsg) :
    eventSnapshots (dests.map fun a => Output.send a msg) = [] := by
  induction dests with
  | nil => rfl
  | cons a as ih => exact ih

/-- The cleanup map of `#setRoles` preserves the invariant (roles change
only). -/
theorem NodesInv_cleaned {env : Env} {nodes : List NodeInfo} (h : NodesInv env nodes) :
    NodesInv env (nodes.map fun n => {n with roles := cleanupRoles n.roles}) := by
  constructor
  · intro n hn
    obtain ⟨m, hm, rfl⟩ := List.mem_map.mp hn
    exact h.1 m hm
  · rw [List.map_map]
    exact h.2

theorem setRoles_cases_inv {env : Env} {st : DState} (h : NodesInv env st.nodes) :
    (∀ st' outs, setRoles env st = .ok (st', outs) →
      NodesInv env st'.nodes ∧ ∀ snap ∈ eventSnapshots outs, snap = st'.nodes)
    ∧ (∀ s, setRoles env st = .error s → NodesInv env s.nodes) := by
  have hprmap : ((st.nodes.map (fun n => {n with roles := cleanupRoles n.roles})).map
        fun n => (n.address, n.priority)) = st.nodes.map fun n => (n.address, n.priority) := by
    rw [List.map_map]
    rfl
  have hperm : List.Perm
      (((st.nodes.map (fun n => {n with roles := cleanupRoles n.roles})).mergeSort
        (fun a b => decide (a.priority ≤ b.priority))).map fun n => (n.address, n.priority))
      (st.nodes.map fun n => (n.address, n.priority)) := by
    rw [← hprmap]
    exact (List.mergeSort_perm _ _).map _
  cases hms : (st.nodes.map (fun n => {n with roles := cleanupRoles n.roles})).mergeSort
      (fun a b => decide (a.priority ≤ b.priority)) with
  | nil =>
    constructor
    · intro st' outs heq
      simp only [setRoles] at heq
      simp only [hms] at heq
      simp at heq
    · intro s heq
      simp only [setRoles] at heq
      simp only [hms] at heq
      simp only [Except.error.injEq] at heq
      subst heq
      exact NodesInv_cleaned h
  | cons g rest =>
    rw [hms] at hperm
    cases hfi : ({g with roles := g.roles ++ [Role.GATEWAY]} :: rest).findIdx?
        (fun n => n.address = env.HOST) with
    | none =>
      constructor
      · intro st' outs heq
        simp only [setRoles] at heq
        simp only [hms] at heq
        simp only [hfi] at heq
        simp at heq
      · intro s heq
        simp only [setRoles] at heq
        simp only [hms] at heq
        simp only [hfi] at heq
        simp only [Except.error.injEq] at heq
        subst heq
        refine NodesInv_of_pr_perm ?_ h
        exact hperm
    | some i =>
      constructor
      · intro st' outs heq
        simp only [setRoles] at heq
        simp only [hms] at heq
        simp only [hfi] at heq
        simp only [Except.ok.injEq, Prod.mk.injEq] at heq
        obtain ⟨hst, houts⟩ := heq
        subst hst
        subst houts
        constructor
        · refine NodesInv_of_pr_perm ?_ h
          rw [listModify_map_of_preserve
            (fun n : NodeInfo => {n with roles := n.roles ++ [Role.MESSAGE_BROKER]})
            (fun n => (n.address, n.priority)) (fun x => rfl)]
          exact hperm
        · intro snap hsnap
          simp only [eventSnapshots, List.filterMap_cons, List.filterMap_nil] at hsnap
          rw [List.mem_singleton] at hsnap
          exact hsnap
      · intro s heq
        simp only [setRoles] at heq
        simp only [hms] at heq
        simp only [hfi] at heq
        simp at heq

theorem sendCoordinator_cases_inv {env : Env} {st : DState} (h : NodesInv env st.nodes) :
    (∀ st' outs, sendCoordinator env st = .ok (st', outs) →
      NodesInv env st'.nodes ∧ ∀ snap ∈ eventSnapshots outs, snap = st'.nodes)
    ∧ (∀ s, sendCoordinator env st = .error s → NodesInv env s.nodes) := by
  obtain ⟨hok, herr⟩ := setRoles_cases_inv h
  constructor
  · intro st' outs heq
    simp only [sendCoordinator] at heq
    cases hsr : setRoles env st with
    | error s =>
      simp only [hsr] at heq
      simp at heq
    | ok r =>
      obtain ⟨st1, outs1⟩ := r
      simp only [hsr] at heq
      simp only [Except.ok.injEq, Prod.mk.injEq] at heq
      obtain ⟨hst, houts⟩ := heq
      subst hst
      subst houts
      obtain ⟨hinv1, hsnap1⟩ := hok st1 outs1 hsr
      constructor
      · exact hinv1
      · intro snap hsnap
        rw [eventSnapshots_append, eventSnapshots_sends] at hsnap
        rw [List.append_nil] at hsnap
        exact hsnap1 snap hsnap
  · intro s heq
    simp only [sendCoordinator] at heq
    cases hsr : setRoles env st with
    | error s1 =>
      simp only [hsr] at heq
      simp only [Except.error.injEq] at heq
      subst heq
      exact herr s1 hsr
    | ok r =>
      obtain ⟨st1, outs1⟩ := r
      simp only [hsr] at heq
      simp at heq


theorem electionTimeoutFire_facts {env : Env} {st : DState} {h : String}
    (hInv : NodesInv env st.nodes) :
    NodesInv env (electionTimeoutFire env st h).1.nodes
    ∧ ∀ snap ∈ eventSnapshots (electionTimeoutFire env st h).2,
        snap = (electionTimeoutFire env st h).1.nodes := by
  have hsp : NodesInv env (spliceRemove st.nodes h) :=
    NodesInv_sublist spliceRemove_sublist hInv
  simp only [electionTimeoutFire]
  split
  · exact ⟨hsp, by intro snap hsnap; simp [eventSnapshots] at hsnap⟩
  · obtain ⟨hok, herr⟩ := @sendCoordinator_cases_inv env {st with
      electionInterval := removeKey h st.electionInterval
      nodes := spliceRemove st.nodes h} hsp
    cases hsc : sendCoordinator env {st with
        electionInterval := removeKey h st.electionInterval
        nodes := spliceRemove st.nodes h} with
    | error s =>
      exact ⟨herr s hsc, by intro snap hsnap; simp [eventSnapshots] at hsnap⟩
    | ok r =>
      obtain ⟨st', outs⟩ := r
      exact hok st' outs hsc

theorem addNodes_facts {env : Env} {st : DState} {nodeList : List MessageNodeInfo}
    (hInv : NodesInv env st.nodes) :
    NodesInv env (addNodes env st nodeList).1.nodes
    ∧ ∀ snap ∈ eventSnapshots (addNodes env st nodeList).2.1,
        snap = (addNodes env st nodeList).1.nodes := by
  have hm : NodesInv env (mergeNodes env st.nodes nodeList).1 := mergeNodes_inv hInv
  simp only [addNodes]
  cases hfr : findRoles env st.messageBroker st.gateway nodeList with
  | error e =>
    simp only [hfr]
    exact ⟨hm, by intro snap hsnap; simp [eventSnapshots] at hsnap⟩
  | ok r =>
    obtain ⟨mb, gw, own⟩ := r
    simp only [hfr]
    split
    all_goals try split
    all_goals try split
    all_goals refine ⟨hm, ?_⟩
    all_goals intro snap hsnap
    all_goals simp [eventSnapshots] at hsnap
    all_goals try exact hsnap.trans rfl
    all_goals rcases hsnap with h | h
    all_goals exact h.trans rfl

theorem sendElection_foldl_facts :
    ∀ (hp : List NodeInfo) (acc : DState × List Output),
      ((hp.foldl (fun acc node =>
        ({acc.1 with electionInterval := addKey node.address acc.1.electionInterval,
                     electionTimeout := addKey node.address acc.1.electionTimeout},
         acc.2 ++ [Output.send node.address WireMsg.election])) acc).1.nodes = acc.1.nodes)
      ∧ eventSnapshots ((hp.foldl (fun acc node =>
        ({acc.1 with electionInterval := addKey node.address acc.1.electionInterval,
                     electionTimeout := addKey node.address acc.1.electionTimeout},
         acc.2 ++ [Output.send node.address WireMsg.election])) acc).2)
          = eventSnapshots acc.2 := by
  intro hp
  induction hp with
  | nil => intro acc; exact ⟨rfl, rfl⟩
  | cons a as ih =>
    intro acc
    simp only [List.foldl_cons]
    obtain ⟨ih1, ih2⟩ := ih _
    refine ⟨ih1, ?_⟩
    rw [ih2, eventSnapshots_append]
    simp [eventSnapshots]

theorem sendElection_facts (st : DState) (hp : List NodeInfo) :
    (sendElection st hp).1.nodes = st.nodes
    ∧ eventSnapshots (sendElection st hp).2 = [] := by
  unfold sendElection
  obtain ⟨h1, h2⟩ := sendElection_foldl_facts hp (st, [])
  exact ⟨h1, by rw [h2]; rfl⟩

theorem startElection_cases_inv {env : Env} {st : DState} (hInv : NodesInv env st.nodes) :
    (∀ st' outs, startElection env st = .ok (st', outs) →
      NodesInv env st'.nodes ∧ ∀ snap ∈ eventSnapshots outs, snap = st'.nodes)
    ∧ (∀ s, startElection env st = .error s → NodesInv env s.nodes) := by
  obtain ⟨hok, herr⟩ := @sendCoordinator_cases_inv env {st with receivedOK := false}
    (show NodesInv env ({st with receivedOK := false} : DState).nodes from hInv)
  simp only [startElection]
  split
  · constructor
    · intro st' outs heq
      simp only [Except.ok.injEq] at heq
      obtain ⟨h1, h2⟩ := sendElection_facts {st with receivedOK := false}
        (({st with receivedOK := false} : DState).nodes.filter fun n => n.priority > env.PRIORITY)
      have hst : (sendElection {st with receivedOK := false}
          (({st with receivedOK := false} : DState).nodes.filter
            fun n => n.priority > env.PRIORITY)).1 = st' := by rw [heq]
      have houts : (sendElection {st with receivedOK := false}
          (({st with receivedOK := false} : DState).nodes.filter
            fun n => n.priority > env.PRIORITY)).2 = outs := by rw [heq]
      constructor
      · rw [← hst, h1]
        exact hInv
      · intro snap hsnap
        rw [← houts, h2] at hsnap
        cases hsnap
    · intro s heq
      cases heq
  · exact ⟨hok, herr⟩


theorem handleJoin_facts {env : Env} {st : DState} {sender : String}
    (hInv : NodesInv env st.nodes) :
    NodesInv env (handleJoin env st sender).1.nodes
    ∧ ∀ snap ∈ eventSnapshots (handleJoin env st sender).2,
        snap = (handleJoin env st sender).1.nodes := by
  obtain ⟨ha1, ha2⟩ := @addNodes_facts env st [⟨sender, []⟩] hInv
  simp only [handleJoin]
  split
  · split
    · exact ⟨ha1, ha2⟩
    · split
      · refine ⟨ha1, ?_⟩
        intro snap hsnap
        rw [eventSnapshots_append] at hsnap
        rcases List.mem_append.mp hsnap with h | h
        · exact ha2 snap h
        · simp [eventSnapshots] at h
      · exact ⟨ha1, ha2⟩
  · exact ⟨hInv, by intro snap hsnap; simp [eventSnapshots] at hsnap⟩

theorem handleHello_facts {env : Env} {st : DState}
    {ni : Option (List MessageNodeInfo)} {sender : String}
    (hInv : NodesInv env st.nodes) :
    NodesInv env (handleHello env st ni sender).1.nodes
    ∧ ∀ snap ∈ eventSnapshots (handleHello env st ni sender).2,
        snap = (handleHello env st ni sender).1.nodes := by
  cases ni with
  | none =>
    simp only [handleHello]
    split
    · exact ⟨hInv, by intro snap hsnap; simp [eventSnapshots] at hsnap⟩
    · split
      · exact ⟨hInv, by intro snap hsnap; simp [eventSnapshots] at hsnap⟩
      · exact ⟨hInv, by intro snap hsnap; simp [eventSnapshots] at hsnap⟩
  | some l =>
    obtain ⟨ha1, ha2⟩ := @addNodes_facts env (stopSendingJoin st) l hInv
    simp only [handleHello]
    split
    · exact ⟨ha1, ha2⟩
    · split
      · refine ⟨ha1, ?_⟩
        intro snap hsnap
        rw [eventSnapshots_append] at hsnap
        rcases List.mem_append.mp hsnap with h | h
        · exact ha2 snap h
        · simp [eventSnapshots] at h
      · refine ⟨ha1, ?_⟩
        intro snap hsnap
        rw [eventSnapshots_append] at hsnap
        rcases List.mem_append.mp hsnap with h | h
        · exact ha2 snap h
        · simp [eventSnapshots] at h

theorem handleAckHello_facts {env : Env} {st : DState}
    {ni : Option (List MessageNodeInfo)} {sender : String}
    (hInv : NodesInv env st.nodes) :
    NodesInv env (handleAckHello env st ni sender).1.nodes
    ∧ ∀ snap ∈ eventSnapshots (handleAckHello env st ni sender).2,
        snap = (handleAckHello env st ni sender).1.nodes := by
  cases ni with
  | none =>
    by_cases hmem : sender ∈ st.helloInterval
    · simp only [handleAckHello]
      rw [if_pos hmem]
      split
      · exact ⟨hInv, by intro snap hsnap; simp [eventSnapshots] at hsnap⟩
      · exact ⟨hInv, by intro snap hsnap; simp [eventSnapshots] at hsnap⟩
    · simp only [handleAckHello]
      rw [if_neg hmem]
      split
      · exact ⟨hInv, by intro snap hsnap; simp [eventSnapshots] at hsnap⟩
      · exact ⟨hInv, by intro snap hsnap; simp [eventSnapshots] at hsnap⟩
  | some l =>
    by_cases hmem : sender ∈ st.helloInterval
    · obtain ⟨ha1, ha2⟩ :=
        @addNodes_facts env {st with helloInterval := removeKey sender st.helloInterval} l hInv
      simp only [handleAckHello]
      rw [if_pos hmem]
      split
      · exact ⟨ha1, ha2⟩
      · exact ⟨ha1, ha2⟩
    · obtain ⟨ha1, ha2⟩ := @addNodes_facts env st l hInv
      simp only [handleAckHello]
      rw [if_neg hmem]
      split
      · exact ⟨ha1, ha2⟩
      · exact ⟨ha1, ha2⟩

theorem handleCoordinator_facts {env : Env} {st : DState}
    {ni : Option (List MessageNodeInfo)} {sender : String}
    (hInv : NodesInv env st.nodes) :
    NodesInv env (handleCoordinator env st ni sender).1.nodes
    ∧ ∀ snap ∈ eventSnapshots (handleCoordinator env st ni sender).2,
        snap = (handleCoordinator env st ni sender).1.nodes := by
  simp only [handleCoordinator]
  split
  · exact ⟨hInv, by intro snap hsnap; simp [eventSnapshots] at hsnap⟩
  · cases ni with
    | none =>
      exact ⟨hInv, by intro snap hsnap; simp [eventSnapshots] at hsnap⟩
    | some l =>
      refine ⟨updateRoles_inv l hInv, ?_⟩
      intro snap hsnap
      simp [eventSnapshots] at hsnap
      exact hsnap.trans rfl

theorem applyEvent_snaps {env : Env} {st : DState} (e : Event)
    (hInv : NodesInv env st.nodes) :
    NodesInv env (applyEvent env st e).1.nodes
    ∧ ∀ snap ∈ eventSnapshots (applyEvent env st e).2,
        snap = (applyEvent env st e).1.nodes := by
  cases e with
  | join sender => exact handleJoin_facts hInv
  | hello ni sender => exact handleHello_facts hInv
  | ackHello ni sender => exact handleAckHello_facts hInv
  | ackCoordinator sender =>
    exact ⟨hInv, by intro snap hsnap; simp [applyEvent, eventSnapshots] at hsnap⟩
  | election sender =>
    simp only [applyEvent, handleElection]
    split
    · exact ⟨hInv, by intro snap hsnap; simp [eventSnapshots] at hsnap⟩
    · exact ⟨hInv, by intro snap hsnap; simp [eventSnapshots] at hsnap⟩
  | okMsg sender =>
    simp only [applyEvent, handleOK]
    split
    · exact ⟨hInv, by intro snap hsnap; simp [eventSnapshots] at hsnap⟩
    · exact ⟨hInv, by intro snap hsnap; simp [eventSnapshots] at hsnap⟩
  | coordinator ni sender => exact handleCoordinator_facts hInv
  | preElectionFire =>
    simp only [applyEvent]
    split
    · obtain ⟨hok, herr⟩ :=
        @startElection_cases_inv env {st with preElectionTimeout := false} hInv
      cases hse : startElection env {st with preElectionTimeout := false} with
      | error s =>
        exact ⟨herr s hse, by intro snap hsnap; simp [eventSnapshots] at hsnap⟩
      | ok r =>
        obtain ⟨st', outs⟩ := r
        exact hok st' outs hse
    · exact ⟨hInv, by intro snap hsnap; simp [eventSnapshots] at hsnap⟩
  | electionTimeout address =>
    simp only [applyEvent]
    split
    · exact electionTimeoutFire_facts hInv
    · exact ⟨hInv, by intro snap hsnap; simp [eventSnapshots] at hsnap⟩
  | helloTimeoutFire address =>
    simp only [applyEvent]
    split
    · exact ⟨hInv, by intro snap hsnap; simp [eventSnapshots] at hsnap⟩
    · exact ⟨hInv, by intro snap hsnap; simp [eventSnapshots] at hsnap⟩
  | coordinatorTimeoutFire address =>
    exact ⟨hInv, by intro snap hsnap; simp [applyEvent, eventSnapshots] at hsnap⟩

theorem Reachable_inv {env : Env} {s : DState} (hs : Reachable env s) :
    NodesInv env s.nodes := by
  induction hs with
  | init =>
    constructor
    · intro n hn
      simp [initState] at hn
      subst hn
      rfl
    · simp [initState]
  | step e hr ih => exact (applyEvent_snaps e ih).1


/-- C7.  Priority identity invariant: in every reachable state, each node
entry's priority equals the priority computed locally from its address and
the local netmask and no two entries share an address; and every node-list
snapshot emitted while dispatching any further event satisfies the same two
properties. -/
theorem C7_priority_identity (env : Env) (s : DState) (hs : Reachable env s) :
    ((∀ n ∈ s.nodes, n.priority = getPriorityNumber n.address env.netmask)
      ∧ (s.nodes.map (fun n => n.address)).Nodup)
    ∧ ∀ (e : Event), ∀ snap ∈ eventSnapshots (applyEvent env s e).2,
        (∀ n ∈ snap, n.priority = getPriorityNumber n.address env.netmask)
        ∧ (snap.map (fun n => n.address)).Nodup := by
  have hstate : NodesInv env s.nodes := Reachable_inv hs
  refine ⟨hstate, ?_⟩
  intro e snap hsnap
  have h := (applyEvent_snaps e hstate).2 snap hsnap
  rw [h]
  exact (applyEvent_snaps e hstate).1

theorem C7_priority_identity_witness :
    ((∀ n ∈ (initState (Env.mk "10.0.0.5" "255.255.255.0")).nodes,
        n.priority = getPriorityNumber n.address
          (Env.mk "10.0.0.5" "255.255.255.0").netmask)
      ∧ (((initState (Env.mk "10.0.0.5" "255.255.255.0")).nodes.map
          (fun n => n.address)).Nodup))
    ∧ ∀ (e : Event), ∀ snap ∈ eventSnapshots
        (applyEvent (Env.mk "10.0.0.5" "255.255.255.0")
          (initState (Env.mk "10.0.0.5" "255.255.255.0")) e).2,
        (∀ n ∈ snap, n.priority = getPriorityNumber n.address
            (Env.mk "10.0.0.5" "255.255.255.0").netmask)
        ∧ (snap.map (fun n => n.address)).Nodup :=
  C7_priority_identity (Env.mk "10.0.0.5" "255.255.255.0")
    (initState (Env.mk "10.0.0.5" "255.255.255.0")) Reachable.init


end Drcedit
